import Mathlib

/-!
Verification of the openrgb-rs2 protocol codec, packet framing and LED-update
batching layers, shallowly embedded from the Rust source.

Machine integers are modelled as `Nat` with explicit `% 2^w` at the points the
source performs a cast; byte buffers are `List Nat` whose elements are the byte
values. Fallible operations return `Except OpenRgbError`. Logging through
`tracing::warn!` is modelled as emitting a value describing the warning.
-/

namespace OpenRgb2

/-- Error enumeration from src/error.rs. The `std::io::Error` payloads of
`ConnectionError` and `CommunicationError` are reduced to their message text;
the `#[from] std::io::Error` conversion therefore maps an I/O error message to
`CommunicationError`. -/
inductive OpenRgbError where
  | ConnectionError (addr : String) (source : String)
  | CommunicationError (source : String)
  | ProtocolError (msg : String)
  | UnsupportedOperation (operation : String)
      (current_protocol_version : Nat) (min_protocol_version : Nat)
  | CommandError (msg : String)
deriving DecidableEq, Repr

/-- Categories of `OpenRgbError`, used to state which error family a failure
belongs to. -/
def OpenRgbError.isProtocolError : OpenRgbError → Bool
  | .ProtocolError _ => true
  | _ => false

def OpenRgbError.isCommunicationError : OpenRgbError → Bool
  | .CommunicationError _ => true
  | _ => false

abbrev OpenRgbResult (α : Type) := Except OpenRgbError α

/-- Little-endian bytes of a `u16` value (the `% 256` factors realise the
fixed width of the machine type). -/
def u16ToLeBytes (v : Nat) : List Nat := [v % 256, v / 256 % 256]

/-- Little-endian bytes of a `u32` value. -/
def u32ToLeBytes (v : Nat) : List Nat :=
  [v % 256, v / 256 % 256, v / 65536 % 256, v / 16777216 % 256]

/-- `u16::from_le_bytes` on two byte values. -/
def u16FromLeBytes (b0 b1 : Nat) : Nat := b0 + 256 * b1

/-- `u32::from_le_bytes` on four byte values. -/
def u32FromLeBytes (b0 b1 b2 b3 : Nat) : Nat :=
  b0 + 256 * b1 + 65536 * b2 + 16777216 * b3

/-- `WriteMessage` from src/protocol/serialize.rs: a protocol version and a
growable output byte buffer. -/
structure WriteMessage where
  protocol_version : Nat
  buf : List Nat
deriving DecidableEq, Repr

namespace WriteMessage

/-- `WriteMessage::new` (the initial capacity is irrelevant to contents). -/
def new (protocol_version : Nat) : WriteMessage := ⟨protocol_version, []⟩

def len (w : WriteMessage) : Nat := w.buf.length

def bytes (w : WriteMessage) : List Nat := w.buf

/-- `write_u8`: push one byte (the argument is a `u8`, hence the `% 256`). -/
def write_u8 (w : WriteMessage) (value : Nat) : WriteMessage :=
  { w with buf := w.buf ++ [value % 256] }

/-- `write_u16`: append the little-endian bytes of the value as `u16`. -/
def write_u16 (w : WriteMessage) (value : Nat) : WriteMessage :=
  { w with buf := w.buf ++ u16ToLeBytes value }

/-- `write_u32`: append the little-endian bytes of the value as `u32`. -/
def write_u32 (w : WriteMessage) (value : Nat) : WriteMessage :=
  { w with buf := w.buf ++ u32ToLeBytes value }

/-- `write_slice`: append raw bytes. -/
def write_slice (w : WriteMessage) (slice : List Nat) : WriteMessage :=
  { w with buf := w.buf ++ slice }

end WriteMessage

/-- `ReceivedMessage` from src/protocol/serialize.rs: an input byte buffer
with a read cursor `idx` and the active protocol version. -/
structure ReceivedMessage where
  protocol_version : Nat
  buf : List Nat
  idx : Nat
deriving DecidableEq, Repr

namespace ReceivedMessage

/-- `ReceivedMessage::new`. -/
def new (buf : List Nat) (protocol_version : Nat) : ReceivedMessage :=
  ⟨protocol_version, buf, 0⟩

/-- `available_buf`: the bytes at and after the cursor. -/
def available_buf (m : ReceivedMessage) : List Nat := m.buf.drop m.idx

/-- `read_u8`: fails unless at least one byte is available, else consumes it. -/
def read_u8 (m : ReceivedMessage) : OpenRgbResult (Nat × ReceivedMessage) :=
  match m.available_buf with
  | [] => .error (.ProtocolError "Not enough bytes to read u8")
  | b :: _ => .ok (b, { m with idx := m.idx + 1 })

/-- `read_u16`: fails unless two bytes are available, else consumes them
little-endian. -/
def read_u16 (m : ReceivedMessage) : OpenRgbResult (Nat × ReceivedMessage) :=
  match m.available_buf with
  | b0 :: b1 :: _ => .ok (u16FromLeBytes b0 b1, { m with idx := m.idx + 2 })
  | _ => .error (.ProtocolError "Not enough bytes to read u16")

/-- `read_u32`: fails unless four bytes are available, else consumes them
little-endian. -/
def read_u32 (m : ReceivedMessage) : OpenRgbResult (Nat × ReceivedMessage) :=
  match m.available_buf with
  | b0 :: b1 :: b2 :: b3 :: _ =>
      .ok (u32FromLeBytes b0 b1 b2 b3, { m with idx := m.idx + 4 })
  | _ => .error (.ProtocolError "Not enough bytes to read u32")

end ReceivedMessage

/-- Type of deserializers (`DeserFromBuf::deserialize`): consume bytes from the
cursor, returning the value and the advanced cursor, or fail. -/
abbrev DeserM (α : Type) := ReceivedMessage → OpenRgbResult (α × ReceivedMessage)

/-- Type of serializers (`SerToBuf::serialize`): append bytes to the output
buffer, or fail. -/
abbrev SerM (α : Type) := α → WriteMessage → OpenRgbResult WriteMessage

end OpenRgb2

namespace OpenRgb2

/-! ## Primitive codecs (src/protocol/data/implement/primitive.rs) -/

/-- `impl DeserFromBuf for u8`. -/
def deserU8 : DeserM Nat := ReceivedMessage.read_u8

/-- `impl SerToBuf for u8`. -/
def serU8 : SerM Nat := fun v w => .ok (w.write_u8 v)

/-- `impl DeserFromBuf for u16`. -/
def deserU16 : DeserM Nat := ReceivedMessage.read_u16

/-- `impl SerToBuf for u16`. -/
def serU16 : SerM Nat := fun v w => .ok (w.write_u16 v)

/-- `impl DeserFromBuf for u32`. -/
def deserU32 : DeserM Nat := ReceivedMessage.read_u32

/-- `impl SerToBuf for u32`. -/
def serU32 : SerM Nat := fun v w => .ok (w.write_u32 v)

/-! ## Color codec (src/protocol/data/color.rs) -/

/-- `Color` (alias of `rgb::RGB8`): three 8-bit channels. -/
structure Color where
  r : Nat
  g : Nat
  b : Nat
deriving DecidableEq, Repr

/-- `RGB8::default()`: all channels zero (black). -/
def Color.default : Color := ⟨0, 0, 0⟩

/-- `impl DeserFromBuf for Color`: read r, g, b, then skip one padding byte. -/
def Color.deserialize : DeserM Color := fun m => do
  let (r, m) ← m.read_u8
  let (g, m) ← m.read_u8
  let (b, m) ← m.read_u8
  let (_, m) ← m.read_u8
  .ok ({ r := r, g := g, b := b }, m)

/-- `impl SerToBuf for Color`: write r, g, b and a zero padding byte. -/
def Color.serialize : SerM Color := fun c w =>
  .ok ((((w.write_u8 c.r).write_u8 c.g).write_u8 c.b).write_u8 0)

/-! ## String codec (src/protocol/data/implement/string.rs)

A Rust `String` is modelled as the list of its UTF-8 bytes. `String::from_utf8`
is modelled by the `utf8Valid` checker below, which accepts exactly the valid
UTF-8 byte sequences (shortest-form, surrogates excluded). -/

/-- A UTF-8 continuation byte: `0x80 ..= 0xBF`. -/
def isUtf8Cont (b : Nat) : Bool := 128 ≤ b && b ≤ 191

/-- Validity of a byte sequence as UTF-8, as checked by `String::from_utf8`. -/
def utf8Valid : List Nat → Bool
  | [] => true
  | b :: rest =>
    if b ≤ 127 then utf8Valid rest
    else if 194 ≤ b && b ≤ 223 then
      match rest with
      | c1 :: r => isUtf8Cont c1 && utf8Valid r
      | [] => false
    else if b = 224 then
      match rest with
      | c1 :: c2 :: r => (160 ≤ c1 && c1 ≤ 191) && isUtf8Cont c2 && utf8Valid r
      | _ => false
    else if (225 ≤ b && b ≤ 236) || b = 238 || b = 239 then
      match rest with
      | c1 :: c2 :: r => isUtf8Cont c1 && isUtf8Cont c2 && utf8Valid r
      | _ => false
    else if b = 237 then
      match rest with
      | c1 :: c2 :: r => (128 ≤ c1 && c1 ≤ 159) && isUtf8Cont c2 && utf8Valid r
      | _ => false
    else if b = 240 then
      match rest with
      | c1 :: c2 :: c3 :: r =>
          (144 ≤ c1 && c1 ≤ 191) && isUtf8Cont c2 && isUtf8Cont c3 && utf8Valid r
      | _ => false
    else if 241 ≤ b && b ≤ 243 then
      match rest with
      | c1 :: c2 :: c3 :: r =>
          isUtf8Cont c1 && isUtf8Cont c2 && isUtf8Cont c3 && utf8Valid r
      | _ => false
    else if b = 244 then
      match rest with
      | c1 :: c2 :: c3 :: r =>
          (128 ≤ c1 && c1 ≤ 143) && isUtf8Cont c2 && isUtf8Cont c3 && utf8Valid r
      | _ => false
    else false

/-- `impl DeserFromBuf for String`: read a u16 length, then exactly that many
bytes through the `std::io::Read` impl's `read_exact` (whose
`UnexpectedEof` failure converts to `CommunicationError` through
`#[from] std::io::Error`), pop the trailing NUL, and validate UTF-8. -/
def deserString : DeserM (List Nat) := fun m => do
  let (len, m1) ← m.read_u16
  if m1.available_buf.length < len then
    .error (.CommunicationError "failed to fill whole buffer")
  else
    let bytes := m1.available_buf.take len
    let m2 : ReceivedMessage := { m1 with idx := m1.idx + len }
    let bytes := bytes.dropLast
    if utf8Valid bytes then .ok (bytes, m2)
    else .error (.ProtocolError "Failed decoding string as UTF-8")

/-- `impl SerToBuf for RawString`: the raw bytes followed by one NUL byte, no
length prefix. -/
def serRawString : SerM (List Nat) := fun s w =>
  .ok ((w.write_slice s).write_u8 0)

/-- `impl SerToBuf for &str` (and `String`): a u16 length prefix counting the
bytes plus the NUL terminator (`self.len() as u16 + 1`), then the raw string. -/
def serString : SerM (List Nat) := fun s w => do
  let w := w.write_u16 (s.length % 65536 + 1)
  serRawString s w

/-! ## Enum codecs (impl_enum_discriminant in src/protocol/data/mod.rs) -/

/-- `DeviceType` from src/protocol/data/openrgb/device_type.rs. -/
inductive DeviceType where
  | Motherboard | DRam | Gpu | Cooler | LEDStrip | Keyboard | Mouse | MouseMat
  | Headset | HeadsetStand | Gamepad | Light | Speaker | Virtual | Unknown
deriving DecidableEq, Repr

/-- `From<&DeviceType> for u32`: the explicit discriminants. -/
def DeviceType.toU32 : DeviceType → Nat
  | .Motherboard => 0 | .DRam => 1 | .Gpu => 2 | .Cooler => 3 | .LEDStrip => 4
  | .Keyboard => 5 | .Mouse => 6 | .MouseMat => 7 | .Headset => 8
  | .HeadsetStand => 9 | .Gamepad => 10 | .Light => 11 | .Speaker => 12
  | .Virtual => 13 | .Unknown => 14

/-- `TryFrom<u32> for DeviceType`: fails on unknown discriminant values. -/
def DeviceType.tryFromU32 (value : Nat) : OpenRgbResult DeviceType :=
  match value with
  | 0 => .ok .Motherboard | 1 => .ok .DRam | 2 => .ok .Gpu | 3 => .ok .Cooler
  | 4 => .ok .LEDStrip | 5 => .ok .Keyboard | 6 => .ok .Mouse
  | 7 => .ok .MouseMat | 8 => .ok .Headset | 9 => .ok .HeadsetStand
  | 10 => .ok .Gamepad | 11 => .ok .Light | 12 => .ok .Speaker
  | 13 => .ok .Virtual | 14 => .ok .Unknown
  | _ => .error (.ProtocolError "Unknown discriminant value for DeviceType")

/-- `impl DeserFromBuf for DeviceType`: read a u32 and convert. -/
def DeviceType.deserialize : DeserM DeviceType := fun m => do
  let (raw, m) ← m.read_u32
  match DeviceType.tryFromU32 raw with
  | .ok v => .ok (v, m)
  | .error e => .error e

/-- `impl SerToBuf for DeviceType`: write the discriminant as u32. -/
def DeviceType.serialize : SerM DeviceType := fun v w =>
  .ok (w.write_u32 v.toU32)

/-- `ZoneType` from src/protocol/data/openrgb/zone.rs. -/
inductive ZoneType where
  | Single | Linear | Matrix
deriving DecidableEq, Repr

def ZoneType.toU32 : ZoneType → Nat
  | .Single => 0 | .Linear => 1 | .Matrix => 2

def ZoneType.tryFromU32 (value : Nat) : OpenRgbResult ZoneType :=
  match value with
  | 0 => .ok .Single | 1 => .ok .Linear | 2 => .ok .Matrix
  | _ => .error (.ProtocolError "Unknown discriminant value for ZoneType")

def ZoneType.deserialize : DeserM ZoneType := fun m => do
  let (raw, m) ← m.read_u32
  match ZoneType.tryFromU32 raw with
  | .ok v => .ok (v, m)
  | .error e => .error e

def ZoneType.serialize : SerM ZoneType := fun v w =>
  .ok (w.write_u32 v.toU32)

/-! ## Flag set codec (src/protocol/data/implement/flags.rs)

A `FlagSet<T>` over a `u32` representation is modelled as the `Nat` of its
bits; each flag enum contributes a mask of its valid bits, and
`FlagSet::new` fails when any bit outside the mask is set. -/

/-- Valid-bit mask of `ControllerFlags` (bits 0, 1, 2 and 8). -/
def controllerFlagsMask : Nat := 1 + 2 + 4 + 256

/-- Valid-bit mask of `ZoneFlags` (bit 0 only). -/
def zoneFlagsMask : Nat := 1

/-- `impl DeserFromBuf for FlagSet<T>`: read a u32 and validate it against the
flag mask (`FlagSet::new`). -/
def deserFlagSet (mask : Nat) : DeserM Nat := fun m => do
  let (value, m) ← m.read_u32
  if value &&& mask = value then .ok (value, m)
  else .error (.ProtocolError "Received invalid flag")

/-- `impl SerToBuf for FlagSet<T>`: write the bits as u32. -/
def serFlagSet : SerM Nat := fun bits w => .ok (w.write_u32 bits)

/-! ## Sequence codecs (vec.rs, slice.rs, array.rs) -/

/-- Serialize each element of a list in order (the element loops of the
`Vec<T>` and `&[T]` impls). -/
def serEach (serT : SerM α) : List α → WriteMessage → OpenRgbResult WriteMessage
  | [], w => .ok w
  | x :: xs, w => do
      let w ← serT x w
      serEach serT xs w

/-- `ReceivedMessage::read_n_values`: decode exactly `n` values in order. -/
def read_n_values (d : DeserM α) : Nat → DeserM (List α)
  | 0 => fun m => .ok ([], m)
  | n + 1 => fun m => do
      let (x, m) ← d m
      let (xs, m) ← read_n_values d n m
      .ok (x :: xs, m)

/-- `impl SerToBuf for Vec<T>`: `self.len() as u16` (wrapping) as length
prefix, then every element. -/
def serVec (serT : SerM α) : SerM (List α) := fun v w => do
  let w := w.write_u16 v.length
  serEach serT v w

/-- `impl DeserFromBuf for Vec<T>`: read a u16 length then that many
elements. -/
def deserVec (d : DeserM α) : DeserM (List α) := fun m => do
  let (len, m) ← m.read_u16
  read_n_values d len m

/-- `impl SerToBuf for &[T]`: `u16::try_from(self.len())` fails with a
protocol error when the slice exceeds `u16::MAX` elements; otherwise a u16
length prefix then every element. -/
def serSlice (serT : SerM α) : SerM (List α) := fun v w =>
  if v.length > 65535 then .error (.ProtocolError "Slice is too large to encode")
  else do
    let w := w.write_u16 v.length
    serEach serT v w

/-- `impl SerToBuf for [T; N]`: `self.as_slice().serialize(buf)`, which
resolves to the `&[T]` impl and therefore writes the u16 length prefix. -/
def serArray (serT : SerM α) : SerM (List α) := serSlice serT

/-- `impl DeserFromBuf for [T; N]`: decode exactly `n` elements (no length
prefix); any element failure aborts the whole array. -/
def deserArray (d : DeserM α) (n : Nat) : DeserM (List α) := read_n_values d n

/-! ## Tuple codec (src/protocol/data/implement/tuple.rs), pair case -/

/-- `impl SerToBuf for (A, B)`: field-by-field, no prefix. -/
def serPair (serA : SerM α) (serB : SerM β) : SerM (α × β) := fun p w => do
  let w ← serA p.1 w
  serB p.2 w

/-- `impl DeserFromBuf for (A, B)`. -/
def deserPair (dA : DeserM α) (dB : DeserM β) : DeserM (α × β) := fun m => do
  let (a, m) ← dA m
  let (b, m) ← dB m
  .ok ((a, b), m)

end OpenRgb2

namespace OpenRgb2

/-! ## Versioned optional field (src/protocol/data/protocol_option.rs) -/

/-- `ProtocolOption<const VER: usize, T>`: either a supported value or the
absent state produced when the active protocol version is below `VER`. -/
inductive ProtocolOption (V : Nat) (α : Type) where
  | Some (v : α)
  | UnsupportedVersion
deriving DecidableEq, Repr

/-- `impl DeserFromBuf for ProtocolOption<VER, T>`: below the minimum version
produce `UnsupportedVersion` without consuming bytes, otherwise decode `T`. -/
def ProtocolOption.deserialize (V : Nat) (d : DeserM α) :
    DeserM (ProtocolOption V α) := fun m =>
  if m.protocol_version < V then .ok (.UnsupportedVersion, m)
  else do
    let (val, m) ← d m
    .ok (.Some val, m)

/-- `impl SerToBuf for ProtocolOption<VER, T>`: below the minimum version
write nothing; otherwise serialize the value if present, nothing if absent. -/
def ProtocolOption.serialize (V : Nat) (serT : SerM α) :
    SerM (ProtocolOption V α) := fun po w =>
  if w.protocol_version < V then .ok w
  else
    match po with
    | .Some v => serT v w
    | .UnsupportedVersion => .ok w

/-! ## Segment data (src/protocol/data/openrgb/segment.rs) -/

/-- `usize::MAX` on the 64-bit targets the crate builds for. -/
def usizeMax : Nat := 2 ^ 64 - 1

/-- `SegmentData`: name, type, start offset and LED count; the `id` field is
not part of the wire format and is set after reading. Rust `String`s appear
as their UTF-8 byte lists. -/
structure SegmentData where
  name : List Nat
  seg_type : ZoneType
  start_idx : Nat
  led_count : Nat
  id : Nat
deriving DecidableEq, Repr

/-- `SegmentData::new`: segment type defaults to `Linear`, id to
`usize::MAX`. -/
def SegmentData.new (name : List Nat) (start_idx led_count : Nat) : SegmentData :=
  ⟨name, .Linear, start_idx, led_count, usizeMax⟩

/-- `SegmentData::offset`. -/
def SegmentData.offset (s : SegmentData) : Nat := s.start_idx

/-- `SegmentData::led_count` as usize (`num_leds` on the client wrapper). -/
def SegmentData.num_leds (s : SegmentData) : Nat := s.led_count

/-- `impl DeserFromBuf for SegmentData`: fails below protocol version 4, else
name, type, start index and count in order, with `id` set to `usize::MAX`. -/
def SegmentData.deserialize : DeserM SegmentData := fun m =>
  if m.protocol_version < 4 then
    .error (.ProtocolError "SegmentData is not supported in protocol version < 4")
  else do
    let (name, m) ← deserString m
    let (seg_type, m) ← ZoneType.deserialize m
    let (start_idx, m) ← deserU32 m
    let (led_count, m) ← deserU32 m
    .ok (⟨name, seg_type, start_idx, led_count, usizeMax⟩, m)

/-- `impl SerToBuf for SegmentData`: fails below protocol version 4, else
name, type, start index and count in order (`id` is not written). -/
def SegmentData.serialize : SerM SegmentData := fun s w =>
  if w.protocol_version < 4 then
    .error (.ProtocolError "SegmentData is not supported in protocol version < 4")
  else do
    let w ← serString s.name w
    let w ← ZoneType.serialize s.seg_type w
    let w ← serU32 s.start_idx w
    serU32 s.led_count w

/-! ## Length-prefixed sub-packet (src/protocol/stream.rs, OpenRgbPacket) -/

/-- `impl SerToBuf for OpenRgbPacket<T>`: serialize the contents into a fresh
scratch buffer at the same protocol version, then write a u32 length equal to
the scratch length plus the 4 bytes of the length field itself, followed by
the scratch bytes. -/
def OpenRgbPacket.serialize (serT : SerM α) : SerM α := fun contents buf => do
  let inner_buf ← serT contents (WriteMessage.new buf.protocol_version)
  let len := inner_buf.len + 4
  let buf := buf.write_u32 len
  .ok (buf.write_slice inner_buf.bytes)

/-! ## Packet identifiers (src/protocol/packet.rs) -/

/-- `PacketId`: the packet-kind discriminants used by the session layer. -/
inductive PacketId where
  | RequestControllerCount | RequestControllerData | RequestProtocolVersion
  | SetClientName | DeviceListUpdated | RequestDeviceRescan
  | RequestProfileList | RequestSaveProfile | RequestLoadProfile
  | RequestDeleteProfile | RequestPluginList | PluginSpecific
  | RGBControllerResizeZone | RgbControllerClearSegments
  | RGBControllerAddSegment | RGBControllerUpdateLeds
  | RGBControllerUpdateZoneLeds | RGBControllerUpdateSingleLed
  | RGBControllerSetCustomMode | RGBControllerUpdateMode | RGBControllerSaveMode
deriving DecidableEq, Repr

/-- `From<&PacketId> for u32`: the wire discriminants. -/
def PacketId.toU32 : PacketId → Nat
  | .RequestControllerCount => 0
  | .RequestControllerData => 1
  | .RequestProtocolVersion => 40
  | .SetClientName => 50
  | .DeviceListUpdated => 100
  | .RequestDeviceRescan => 140
  | .RequestProfileList => 150
  | .RequestSaveProfile => 151
  | .RequestLoadProfile => 152
  | .RequestDeleteProfile => 153
  | .RequestPluginList => 200
  | .PluginSpecific => 201
  | .RGBControllerResizeZone => 1000
  | .RgbControllerClearSegments => 1001
  | .RGBControllerAddSegment => 1002
  | .RGBControllerUpdateLeds => 1050
  | .RGBControllerUpdateZoneLeds => 1051
  | .RGBControllerUpdateSingleLed => 1052
  | .RGBControllerSetCustomMode => 1100
  | .RGBControllerUpdateMode => 1101
  | .RGBControllerSaveMode => 1102

end OpenRgb2

namespace OpenRgb2

/-! ## Client data model (src/client/controller.rs, zone.rs, segment.rs)

`ZoneData` and the client `Controller` are modelled with the fields the
embedded operations read (id, name, LED counts, zones, segments); the
remaining pure-data fields of `ControllerData` (vendor, description, modes,
raw LED descriptors, current colors, ...) are never touched by any embedded
function and are omitted. -/

/-- `ProtocolOption::value` as a plain `Option`. -/
def ProtocolOption.value : ProtocolOption V α → Option α
  | .Some v => some v
  | .UnsupportedVersion => none

/-- `ZoneData` from src/protocol/data/openrgb/zone.rs. The LED position
matrix is kept as row-major data. -/
structure ZoneData where
  id : Nat
  name : List Nat
  zone_type : ZoneType
  leds_min : Nat
  leds_max : Nat
  leds_count : Nat
  segments : ProtocolOption 4 (List SegmentData)
  flags : ProtocolOption 5 Nat
  matrix : Option (List (List Nat))
deriving DecidableEq, Repr

/-- `Zone::num_leds`, delegated to `ZoneData::leds_count`. -/
def ZoneData.num_leds (z : ZoneData) : Nat := z.leds_count

/-- `Zone::get_segment`: fails when segments are unsupported (< protocol 4)
or the id is out of range. -/
def ZoneData.get_segment (z : ZoneData) (segment_id : Nat) :
    OpenRgbResult SegmentData :=
  match z.segments with
  | .UnsupportedVersion =>
      .error (.CommandError "Segments not supported in protocol version < 4")
  | .Some segments =>
      match segments.get? segment_id with
      | some s => .ok s
      | none => .error (.CommandError "Segment not found in zone")

/-- The client `Controller`: its externally assigned id and the controller
data fields used by the batching layer. `num_leds` is the cached sum of zone
LED counts computed when `ControllerData` is deserialized. -/
structure Controller where
  id : Nat
  name : List Nat
  num_leds : Nat
  zones : List ZoneData
deriving DecidableEq, Repr

/-- `Controller::get_zone`: positional lookup in the zone list. -/
def Controller.get_zone (c : Controller) (zone_id : Nat) :
    OpenRgbResult ZoneData :=
  match c.zones.get? zone_id with
  | some z => .ok z
  | none => .error (.CommandError "Zone not found for controller")

/-- `Controller::get_zone_led_offset`: out-of-range ids fail; otherwise the
sum of `leds_count` over all zones whose `id` field is below `zone_id`. -/
def Controller.get_zone_led_offset (c : Controller) (zone_id : Nat) :
    OpenRgbResult Nat :=
  if zone_id ≥ c.zones.length then
    .error (.ProtocolError "zone not found in controller")
  else
    .ok (((c.zones.filter (fun z => decide (z.id < zone_id))).map
      (fun z => z.leds_count)).sum)

/-- `Zone::offset`: `get_zone_led_offset` at the zone's own id, unwrapped in
the source with `.expect` (the panic case, an invalid zone id, is modelled as
0 and excluded by well-formedness hypotheses). -/
def Controller.zoneOffset (c : Controller) (z : ZoneData) : Nat :=
  match c.get_zone_led_offset z.id with
  | .ok n => n
  | .error _ => 0

/-! ## Update batching (src/client/command.rs) -/

/-- `UpdateCommand`: the four kinds of queued LED updates. -/
inductive UpdateCommand where
  | Controller (controller_id : Nat) (colors : List Color)
  | Zone (controller_id zone_id : Nat) (colors : List Color)
  | Segment (controller_id zone_id segment_id : Nat) (colors : List Color)
  | Single (controller_id led_id : Nat) (color : Color)
deriving DecidableEq, Repr

/-- A `tracing::warn!` event emitted by `UpdateLedCommand::add_command`,
carrying the quantities the source interpolates into the message. -/
inductive Warning where
  | controllerOversized (given num_leds : Nat)
  | zoneOversized (zone_id given num_leds : Nat)
  | segmentOversized (zone_id given num_leds : Nat)
  | ledOutOfBounds (led_id num_leds : Nat)
deriving DecidableEq, Repr

/-- `UpdateLedCommand`: the target controller and the accumulated absolute
color buffer. -/
structure UpdateLedCommand where
  controller : Controller
  colors : List Color
deriving DecidableEq, Repr

/-- `UpdateLedCommand::new`: the buffer starts empty (`Vec::with_capacity`
allocates capacity only). -/
def UpdateLedCommand.new (controller : Controller) : UpdateLedCommand :=
  ⟨controller, []⟩

/-- `UpdateLedCommand::set_colors`: grow the buffer with default (black)
colors up to `offset + colors.len()` if it is shorter (`Vec::resize`), then
overwrite the range `[offset, offset+colors.len())`. -/
def UpdateLedCommand.set_colors (s : UpdateLedCommand) (offset : Nat)
    (cs : List Color) : OpenRgbResult UpdateLedCommand :=
  let len := offset + cs.length
  let colors := if s.colors.length < len then
      s.colors ++ List.replicate (len - s.colors.length) Color.default
    else s.colors
  .ok { s with colors := colors.take offset ++ cs ++ colors.drop len }

/-- `UpdateLedCommand::add_command`: dispatch one queued update into the
accumulated buffer, emitting the warnings the source logs. -/
def UpdateLedCommand.add_command (s : UpdateLedCommand) (cmd : UpdateCommand) :
    OpenRgbResult (UpdateLedCommand × List Warning) :=
  match cmd with
  | .Controller _ colors =>
      let warns := if colors.length > s.controller.num_leds then
          [Warning.controllerOversized colors.length s.controller.num_leds]
        else []
      do
        let s ← s.set_colors 0 colors
        .ok (s, warns)
  | .Zone _ zone_id colors => do
      let zone ← s.controller.get_zone zone_id
      let warns := if colors.length ≥ zone.num_leds then
          [Warning.zoneOversized zone_id colors.length zone.num_leds]
        else []
      let offset ← s.controller.get_zone_led_offset zone_id
      let len := min colors.length zone.num_leds
      let s ← s.set_colors offset (colors.take len)
      .ok (s, warns)
  | .Segment _ zone_id segment_id colors => do
      let zone ← s.controller.get_zone zone_id
      let seg ← zone.get_segment segment_id
      let warns := if colors.length ≥ seg.num_leds then
          [Warning.segmentOversized zone_id colors.length seg.num_leds]
        else []
      let offset := s.controller.zoneOffset zone + seg.offset
      let s ← s.set_colors offset colors
      .ok (s, warns)
  | .Single _ led_id color =>
      let warns := if led_id ≥ s.controller.num_leds then
          [Warning.ledOutOfBounds led_id s.controller.num_leds]
        else []
      do
        let s ← s.set_colors led_id [color]
        .ok (s, warns)

/-- `UpdateLedCommand::add_set_led`. -/
def UpdateLedCommand.add_set_led (s : UpdateLedCommand) (led_id : Nat)
    (color : Color) : OpenRgbResult (UpdateLedCommand × List Warning) :=
  s.add_command (.Single s.controller.id led_id color)

/-- `UpdateLedCommand::add_set_leds`. -/
def UpdateLedCommand.add_set_leds (s : UpdateLedCommand) (colors : List Color) :
    OpenRgbResult (UpdateLedCommand × List Warning) :=
  s.add_command (.Controller s.controller.id colors)

/-- `UpdateLedCommand::add_set_zone_led`: the absolute LED index is the
zone's offset plus the zone-relative index. -/
def UpdateLedCommand.add_set_zone_led (s : UpdateLedCommand)
    (zone_id led_idx : Nat) (color : Color) :
    OpenRgbResult (UpdateLedCommand × List Warning) := do
  let offset ← s.controller.get_zone_led_offset zone_id
  s.add_command (.Single s.controller.id (offset + led_idx) color)

/-- `UpdateLedCommand::add_set_zone_leds`. -/
def UpdateLedCommand.add_set_zone_leds (s : UpdateLedCommand) (zone_id : Nat)
    (colors : List Color) : OpenRgbResult (UpdateLedCommand × List Warning) :=
  s.add_command (.Zone s.controller.id zone_id colors)

/-- `UpdateLedCommand::add_set_segment_led`: the source computes
`led_idx + segment.offset()` (the zone's own offset is not added). -/
def UpdateLedCommand.add_set_segment_led (s : UpdateLedCommand)
    (zone_id segment_id led_idx : Nat) (color : Color) :
    OpenRgbResult (UpdateLedCommand × List Warning) := do
  let zone ← s.controller.get_zone zone_id
  let seg ← zone.get_segment segment_id
  s.add_command (.Single s.controller.id (led_idx + seg.offset) color)

/-- `UpdateLedCommand::add_set_segment_leds`. -/
def UpdateLedCommand.add_set_segment_leds (s : UpdateLedCommand)
    (zone_id segment_id : Nat) (colors : List Color) :
    OpenRgbResult (UpdateLedCommand × List Warning) :=
  s.add_command (.Segment s.controller.id zone_id segment_id colors)

/-! ## Session layer (src/protocol/mod.rs, src/protocol/stream.rs)

Stream writes are modelled as the framed packets they produce; an operation
returns the list of packets it writes, in order, or the error raised before
any write happened. Reads of server replies are not modelled: no claim
depends on them. -/

/-- A framed packet as put on the wire by `ProtocolStream::write_packet`
(the header fields plus the serialized payload). -/
structure SentPacket where
  device_id : Nat
  packet_id : PacketId
  payload : List Nat
deriving DecidableEq, Repr

/-- `impl SerToBuf for ()`. -/
def serUnit : SerM Unit := fun _ w => .ok w

/-- `ProtocolStream::write_packet`: serialize the payload at the session's
protocol version into a fresh buffer and emit one framed packet. -/
def write_packet (protocol_version device_id : Nat) (packet_id : PacketId)
    (serT : SerM α) (data : α) : OpenRgbResult SentPacket := do
  let buf ← serT data (WriteMessage.new protocol_version)
  .ok ⟨device_id, packet_id, buf.bytes⟩

/-- `OpenRgbProtocol::check_protocol_version`. -/
def check_protocol_version (protocol_id min : Nat) (msg : String) :
    OpenRgbResult Unit :=
  if protocol_id < min then
    .error (.UnsupportedOperation msg protocol_id min)
  else .ok ()

/-- `OpenRgbProtocol::update_leds`: one `UpdateLeds` packet whose payload is
the length-prefixed sub-packet wrapping the color slice. -/
def update_leds (protocol_id controller_id : Nat) (colors : List Color) :
    OpenRgbResult SentPacket :=
  write_packet protocol_id controller_id .RGBControllerUpdateLeds
    (OpenRgbPacket.serialize (serSlice Color.serialize)) colors

/-- `UpdateLedCommand::execute`: `Controller::set_leds` on the accumulated
buffer, i.e. exactly one whole-device `update_leds` wire call. -/
def UpdateLedCommand.execute (protocol_id : Nat) (s : UpdateLedCommand) :
    OpenRgbResult (List SentPacket) := do
  let p ← update_leds protocol_id s.controller.id s.colors
  .ok [p]

/-- `OpenRgbProtocol::get_profiles` (write side). -/
def get_profiles (protocol_id : Nat) : OpenRgbResult (List SentPacket) := do
  let _ ← check_protocol_version protocol_id 2 "Get profiles"
  let p ← write_packet protocol_id 0 .RequestProfileList serUnit ()
  .ok [p]

/-- `OpenRgbProtocol::load_profile`: the name is sent as a `RawString`. -/
def load_profile (protocol_id : Nat) (name : List Nat) :
    OpenRgbResult (List SentPacket) := do
  let _ ← check_protocol_version protocol_id 2 "Load profiles"
  let p ← write_packet protocol_id 0 .RequestLoadProfile serRawString name
  .ok [p]

/-- `OpenRgbProtocol::save_profile`: the name is sent as a `String`. -/
def save_profile (protocol_id : Nat) (name : List Nat) :
    OpenRgbResult (List SentPacket) := do
  let _ ← check_protocol_version protocol_id 2 "Save profiles"
  let p ← write_packet protocol_id 0 .RequestSaveProfile serString name
  .ok [p]

/-- `OpenRgbProtocol::delete_profile`. -/
def delete_profile (protocol_id : Nat) (name : List Nat) :
    OpenRgbResult (List SentPacket) := do
  let _ ← check_protocol_version protocol_id 2 "Delete profiles"
  let p ← write_packet protocol_id 0 .RequestDeleteProfile serString name
  .ok [p]

/-- `OpenRgbProtocol::save_mode`: generic in the mode payload like the
source's `ModeData` argument; sends the sub-packet wrapping
`(mode.id() as u32, mode)`. -/
def save_mode (protocol_id controller_id mode_id : Nat) (serMode : SerM μ)
    (mode : μ) : OpenRgbResult (List SentPacket) := do
  let _ ← check_protocol_version protocol_id 3 "Save mode"
  let p ← write_packet protocol_id controller_id .RGBControllerSaveMode
    (OpenRgbPacket.serialize (serPair serU32 serMode)) (mode_id, mode)
  .ok [p]

/-- `OpenRgbProtocol::get_plugins` (write side). -/
def get_plugins (protocol_id : Nat) : OpenRgbResult (List SentPacket) := do
  let _ ← check_protocol_version protocol_id 4 "Request Plugin List"
  let p ← write_packet protocol_id 0 .RequestPluginList serUnit ()
  .ok [p]

/-- `OpenRgbProtocol::add_segment`. -/
def add_segment (protocol_id controller_id zone_id : Nat)
    (segment : SegmentData) : OpenRgbResult (List SentPacket) := do
  let _ ← check_protocol_version protocol_id 5 "Add Segment"
  let p ← write_packet protocol_id controller_id .RGBControllerAddSegment
    (OpenRgbPacket.serialize (serPair serU32 SegmentData.serialize))
    (zone_id, segment)
  .ok [p]

/-- `OpenRgbProtocol::clear_segments`. -/
def clear_segments (protocol_id controller_id : Nat) :
    OpenRgbResult (List SentPacket) := do
  let _ ← check_protocol_version protocol_id 5 "Clear segment"
  let p ← write_packet protocol_id controller_id .RgbControllerClearSegments
    serUnit ()
  .ok [p]

/-- `OpenRgbProtocol::rescan_devices`. -/
def rescan_devices (protocol_id : Nat) : OpenRgbResult (List SentPacket) := do
  let _ ← check_protocol_version protocol_id 5 "Rescan devices"
  let p ← write_packet protocol_id 0 .RequestDeviceRescan serUnit ()
  .ok [p]

end OpenRgb2

namespace OpenRgb2

/-! ## Codec correctness predicates

`SerAppends ser ver x bs` says serializing `x` at protocol version `ver`
appends exactly the bytes `bs`. `DeserConsumes d ver x bs` says the
deserializer, run on any cursor whose remaining bytes start with `bs`,
returns `x` and advances past exactly `bs`. `DeserShortFails d ver bs` says
the deserializer fails whenever the buffer ends inside `bs`. -/

def SerAppends (ser : SerM α) (ver : Nat) (x : α) (bs : List Nat) : Prop :=
  ∀ w : WriteMessage, w.protocol_version = ver →
    ser x w = .ok ⟨ver, w.buf ++ bs⟩

def DeserConsumes (d : DeserM α) (ver : Nat) (x : α) (bs : List Nat) : Prop :=
  ∀ m rest, m.protocol_version = ver → m.available_buf = bs ++ rest →
    d m = .ok (x, { m with idx := m.idx + bs.length })

def DeserShortFails (d : DeserM α) (ver : Nat) (bs : List Nat) : Prop :=
  ∀ m n, n < bs.length → m.protocol_version = ver →
    m.available_buf = bs.take n → ∃ e, d m = .error e

/-! ## Basic lemmas about the cursor and bind -/

theorem ebind_ok (a : α) (f : α → Except ε β) :
    (Except.ok a >>= f) = f a := rfl

theorem ebind_err (e : ε) (f : α → Except ε β) :
    ((Except.error e : Except ε α) >>= f) = .error e := rfl

theorem available_buf_advance (m : ReceivedMessage) (k : Nat) :
    (ReceivedMessage.mk m.protocol_version m.buf (m.idx + k)).available_buf =
      m.available_buf.drop k := by
  simp [ReceivedMessage.available_buf, List.drop_drop, Nat.add_comm]

theorem read_u8_spec (m : ReceivedMessage) (b : Nat) (t : List Nat)
    (h : m.available_buf = b :: t) :
    m.read_u8 = .ok (b, { m with idx := m.idx + 1 }) := by
  unfold ReceivedMessage.read_u8
  rw [h]

theorem read_u16_spec (m : ReceivedMessage) (b0 b1 : Nat) (t : List Nat)
    (h : m.available_buf = b0 :: b1 :: t) :
    m.read_u16 = .ok (u16FromLeBytes b0 b1, { m with idx := m.idx + 2 }) := by
  unfold ReceivedMessage.read_u16
  rw [h]

theorem read_u32_spec (m : ReceivedMessage) (b0 b1 b2 b3 : Nat) (t : List Nat)
    (h : m.available_buf = b0 :: b1 :: b2 :: b3 :: t) :
    m.read_u32 = .ok (u32FromLeBytes b0 b1 b2 b3, { m with idx := m.idx + 4 }) := by
  unfold ReceivedMessage.read_u32
  rw [h]

theorem read_u8_fail (m : ReceivedMessage) (h : m.available_buf = []) :
    ∃ e, m.read_u8 = .error e := by
  refine ⟨.ProtocolError "Not enough bytes to read u8", ?_⟩
  unfold ReceivedMessage.read_u8
  rw [h]

theorem read_u16_fail (m : ReceivedMessage) (h : m.available_buf.length < 2) :
    ∃ e, m.read_u16 = .error e := by
  refine ⟨.ProtocolError "Not enough bytes to read u16", ?_⟩
  unfold ReceivedMessage.read_u16
  rcases hv : m.available_buf with _ | ⟨b0, _ | ⟨b1, t⟩⟩
  · rfl
  · rfl
  · rw [hv] at h; simp at h; omega

theorem read_u32_fail (m : ReceivedMessage) (h : m.available_buf.length < 4) :
    ∃ e, m.read_u32 = .error e := by
  refine ⟨.ProtocolError "Not enough bytes to read u32", ?_⟩
  unfold ReceivedMessage.read_u32
  rcases hv : m.available_buf with _ | ⟨b0, _ | ⟨b1, _ | ⟨b2, _ | ⟨b3, t⟩⟩⟩⟩
  all_goals first
    | rfl
    | (rw [hv] at h; simp at h; omega)

/-! ## Primitive codec specifications -/

theorem serU8_appends (ver v : Nat) : SerAppends serU8 ver v [v % 256] := by
  intro w hw
  simp [serU8, WriteMessage.write_u8, ← hw]

theorem deserU8_consumes (ver v : Nat) (hv : v < 256) :
    DeserConsumes deserU8 ver v [v % 256] := by
  intro m rest hver hav
  rw [Nat.mod_eq_of_lt hv] at hav
  simpa [deserU8] using read_u8_spec m v rest hav

theorem deserU8_short (ver : Nat) (bs : List Nat) (hbs : bs.length = 1) :
    DeserShortFails deserU8 ver bs := by
  intro m n hn hver hav
  have hn0 : n = 0 := by omega
  subst hn0
  exact read_u8_fail m (by simpa using hav)

theorem serU16_appends (ver v : Nat) : SerAppends serU16 ver v (u16ToLeBytes v) := by
  intro w hw
  simp [serU16, WriteMessage.write_u16, ← hw]

theorem deserU16_consumes (ver v : Nat) (hv : v < 65536) :
    DeserConsumes deserU16 ver v (u16ToLeBytes v) := by
  intro m rest hver hav
  rw [u16ToLeBytes] at hav
  have := read_u16_spec m (v % 256) (v / 256 % 256) rest (by simpa using hav)
  rw [deserU16, this]
  have : u16FromLeBytes (v % 256) (v / 256 % 256) = v := by
    rw [u16FromLeBytes]; omega
  rw [this]
  simp [u16ToLeBytes]

theorem deserU16_short (ver : Nat) (bs : List Nat) (hbs : bs.length = 2) :
    DeserShortFails deserU16 ver bs := by
  intro m n hn hver hav
  refine read_u16_fail m ?_
  rw [hav]
  simp
  omega

theorem serU32_appends (ver v : Nat) : SerAppends serU32 ver v (u32ToLeBytes v) := by
  intro w hw
  simp [serU32, WriteMessage.write_u32, ← hw]

theorem deserU32_consumes (ver v : Nat) (hv : v < 4294967296) :
    DeserConsumes deserU32 ver v (u32ToLeBytes v) := by
  intro m rest hver hav
  rw [u32ToLeBytes] at hav
  have h := read_u32_spec m (v % 256) (v / 256 % 256) (v / 65536 % 256)
    (v / 16777216 % 256) rest (by simpa using hav)
  rw [deserU32, h]
  have : u32FromLeBytes (v % 256) (v / 256 % 256) (v / 65536 % 256)
      (v / 16777216 % 256) = v := by
    rw [u32FromLeBytes]; omega
  rw [this]
  simp [u32ToLeBytes]

theorem deserU32_short (ver : Nat) (bs : List Nat) (hbs : bs.length = 4) :
    DeserShortFails deserU32 ver bs := by
  intro m n hn hver hav
  refine read_u32_fail m ?_
  rw [hav]
  simp
  omega

end OpenRgb2

namespace OpenRgb2

/-! ## Color codec specification -/

/-- The wire bytes of a color: the three channels then the zero padding
byte. -/
def Color.encBytes (c : Color) : List Nat := [c.r % 256, c.g % 256, c.b % 256, 0]

theorem color_ser_appends (ver : Nat) (c : Color) :
    SerAppends Color.serialize ver c (Color.encBytes c) := by
  intro w hw
  simp [Color.serialize, WriteMessage.write_u8, Color.encBytes, ← hw]

theorem color_deser_consumes (ver : Nat) (c : Color) (hr : c.r < 256)
    (hg : c.g < 256) (hb : c.b < 256) :
    DeserConsumes Color.deserialize ver c (Color.encBytes c) := by
  intro m rest hver hav
  rw [Color.encBytes, Nat.mod_eq_of_lt hr, Nat.mod_eq_of_lt hg,
    Nat.mod_eq_of_lt hb] at hav
  have h0 : m.available_buf = c.r :: (c.g :: c.b :: 0 :: rest) := by simpa using hav
  have e0 := read_u8_spec m c.r _ h0
  have h1 : (ReceivedMessage.mk m.protocol_version m.buf (m.idx + 1)).available_buf
      = c.g :: c.b :: 0 :: rest := by
    rw [available_buf_advance m 1, h0]; rfl
  have e1 := read_u8_spec _ c.g _ h1
  have h2 : (ReceivedMessage.mk m.protocol_version m.buf (m.idx + 1 + 1)).available_buf
      = c.b :: 0 :: rest := by
    rw [show m.idx + 1 + 1 = m.idx + 2 by omega, available_buf_advance m 2, h0]; rfl
  have e2 := read_u8_spec _ c.b _ h2
  have h3 : (ReceivedMessage.mk m.protocol_version m.buf (m.idx + 1 + 1 + 1)).available_buf
      = 0 :: rest := by
    rw [show m.idx + 1 + 1 + 1 = m.idx + 3 by omega, available_buf_advance m 3, h0]; rfl
  have e3 := read_u8_spec _ 0 _ h3
  simp only [Color.deserialize, e0, ebind_ok, e1, e2, e3, Color.encBytes]
  have h4 : m.idx + 1 + 1 + 1 + 1 = m.idx + 4 := by omega
  rw [h4]
  rfl

theorem color_deser_short (ver : Nat) (c : Color) :
    DeserShortFails Color.deserialize ver (Color.encBytes c) := by
  intro m n hn hver hav
  rw [Color.encBytes] at hn hav
  simp only [List.length_cons, List.length_nil] at hn
  interval_cases n
  · obtain ⟨e, he⟩ := read_u8_fail m (by simpa using hav)
    exact ⟨e, by simp only [Color.deserialize, he, ebind_err]⟩
  · have h0 : m.available_buf = (c.r % 256) :: [] := by simpa using hav
    have e0 := read_u8_spec m _ _ h0
    obtain ⟨e, he⟩ := read_u8_fail (ReceivedMessage.mk m.protocol_version m.buf (m.idx + 1))
      (by rw [available_buf_advance m 1, h0]; rfl)
    exact ⟨e, by simp only [Color.deserialize, e0, ebind_ok, he, ebind_err]⟩
  · have h0 : m.available_buf = (c.r % 256) :: (c.g % 256) :: [] := by simpa using hav
    have e0 := read_u8_spec m _ _ h0
    have e1 := read_u8_spec (ReceivedMessage.mk m.protocol_version m.buf (m.idx + 1)) _ _
      (show _ = (c.g % 256) :: [] by rw [available_buf_advance m 1, h0]; rfl)
    obtain ⟨e, he⟩ := read_u8_fail (ReceivedMessage.mk m.protocol_version m.buf (m.idx + 1 + 1))
      (by rw [show m.idx + 1 + 1 = m.idx + 2 by omega, available_buf_advance m 2, h0]; rfl)
    exact ⟨e, by simp only [Color.deserialize, e0, ebind_ok, e1, he, ebind_err]⟩
  · have h0 : m.available_buf = (c.r % 256) :: (c.g % 256) :: (c.b % 256) :: [] := by
      simpa using hav
    have e0 := read_u8_spec m _ _ h0
    have e1 := read_u8_spec (ReceivedMessage.mk m.protocol_version m.buf (m.idx + 1)) _ _
      (show _ = (c.g % 256) :: (c.b % 256) :: [] by rw [available_buf_advance m 1, h0]; rfl)
    have e2 := read_u8_spec (ReceivedMessage.mk m.protocol_version m.buf (m.idx + 1 + 1)) _ _
      (show _ = (c.b % 256) :: [] by
        rw [show m.idx + 1 + 1 = m.idx + 2 by omega, available_buf_advance m 2, h0]; rfl)
    obtain ⟨e, he⟩ := read_u8_fail
      (ReceivedMessage.mk m.protocol_version m.buf (m.idx + 1 + 1 + 1))
      (by rw [show m.idx + 1 + 1 + 1 = m.idx + 3 by omega, available_buf_advance m 3, h0]; rfl)
    exact ⟨e, by simp only [Color.deserialize, e0, ebind_ok, e1, e2, he, ebind_err]⟩

/-! ## Enum codec specification (DeviceType and ZoneType) -/

/-- The wire bytes of a `DeviceType`: its u32 discriminant. -/
def DeviceType.encBytes (v : DeviceType) : List Nat := u32ToLeBytes v.toU32

theorem deviceType_tryFrom_toU32 (v : DeviceType) :
    DeviceType.tryFromU32 v.toU32 = .ok v := by
  cases v <;> rfl

theorem deviceType_toU32_lt (v : DeviceType) : v.toU32 < 4294967296 := by
  cases v <;> simp [DeviceType.toU32]

theorem deviceType_ser_appends (ver : Nat) (v : DeviceType) :
    SerAppends DeviceType.serialize ver v v.encBytes := by
  intro w hw
  simp [DeviceType.serialize, WriteMessage.write_u32, DeviceType.encBytes, ← hw]

theorem deviceType_deser_consumes (ver : Nat) (v : DeviceType) :
    DeserConsumes DeviceType.deserialize ver v v.encBytes := by
  intro m rest hver hav
  have e0 := deserU32_consumes ver v.toU32 (deviceType_toU32_lt v) m rest hver hav
  rw [deserU32] at e0
  simp only [DeviceType.deserialize, e0, ebind_ok, deviceType_tryFrom_toU32,
    DeviceType.encBytes, u32ToLeBytes]

theorem deviceType_deser_short (ver : Nat) (v : DeviceType) :
    DeserShortFails DeviceType.deserialize ver v.encBytes := by
  intro m n hn hver hav
  rw [DeviceType.encBytes, u32ToLeBytes] at hn hav
  obtain ⟨e, he⟩ := read_u32_fail m (by
    rw [hav]
    simp only [List.length_cons, List.length_nil] at hn
    simp
    omega)
  exact ⟨e, by simp only [DeviceType.deserialize, he, ebind_err]⟩

/-- The wire bytes of a `ZoneType`: its u32 discriminant. -/
def ZoneType.encBytes (v : ZoneType) : List Nat := u32ToLeBytes v.toU32

theorem zoneType_tryFrom_toU32 (v : ZoneType) :
    ZoneType.tryFromU32 v.toU32 = .ok v := by
  cases v <;> rfl

theorem zoneType_toU32_lt (v : ZoneType) : v.toU32 < 4294967296 := by
  cases v <;> simp [ZoneType.toU32]

theorem zoneType_ser_appends (ver : Nat) (v : ZoneType) :
    SerAppends ZoneType.serialize ver v v.encBytes := by
  intro w hw
  simp [ZoneType.serialize, WriteMessage.write_u32, ZoneType.encBytes, ← hw]

theorem zoneType_deser_consumes (ver : Nat) (v : ZoneType) :
    DeserConsumes ZoneType.deserialize ver v v.encBytes := by
  intro m rest hver hav
  have e0 := deserU32_consumes ver v.toU32 (zoneType_toU32_lt v) m rest hver hav
  rw [deserU32] at e0
  simp only [ZoneType.deserialize, e0, ebind_ok, zoneType_tryFrom_toU32,
    ZoneType.encBytes, u32ToLeBytes]

theorem zoneType_deser_short (ver : Nat) (v : ZoneType) :
    DeserShortFails ZoneType.deserialize ver v.encBytes := by
  intro m n hn hver hav
  rw [ZoneType.encBytes, u32ToLeBytes] at hn hav
  obtain ⟨e, he⟩ := read_u32_fail m (by
    rw [hav]
    simp only [List.length_cons, List.length_nil] at hn
    simp
    omega)
  exact ⟨e, by simp only [ZoneType.deserialize, he, ebind_err]⟩

/-! ## Flag set codec specification -/

theorem flagSet_ser_appends (ver bits : Nat) :
    SerAppends serFlagSet ver bits (u32ToLeBytes bits) := by
  intro w hw
  simp [serFlagSet, WriteMessage.write_u32, ← hw]

theorem flagSet_deser_consumes (ver mask bits : Nat) (hb : bits < 4294967296)
    (hmask : bits &&& mask = bits) :
    DeserConsumes (deserFlagSet mask) ver bits (u32ToLeBytes bits) := by
  intro m rest hver hav
  have e0 := deserU32_consumes ver bits hb m rest hver hav
  rw [deserU32] at e0
  simp only [deserFlagSet, e0, ebind_ok, hmask, if_pos]

theorem flagSet_deser_short (ver mask bits : Nat) :
    DeserShortFails (deserFlagSet mask) ver (u32ToLeBytes bits) := by
  intro m n hn hver hav
  rw [u32ToLeBytes] at hn hav
  obtain ⟨e, he⟩ := read_u32_fail m (by
    rw [hav]
    simp only [List.length_cons, List.length_nil] at hn
    simp
    omega)
  exact ⟨e, by simp only [deserFlagSet, he, ebind_err]⟩

end OpenRgb2

namespace OpenRgb2

/-! ## Sequence codec specification -/

/-- Concatenated encodings of a list's elements. -/
def encList (enc : α → List Nat) : List α → List Nat
  | [] => []
  | x :: xs => enc x ++ encList enc xs

/-- The wire bytes of a `Vec<T>`: the (wrapping) u16 length then the element
encodings. -/
def vecEncBytes (enc : α → List Nat) (v : List α) : List Nat :=
  u16ToLeBytes v.length ++ encList enc v

theorem serEach_appends {serT : SerM α} {enc : α → List Nat} (ver : Nat)
    (v : List α) (h : ∀ x ∈ v, SerAppends serT ver x (enc x)) :
    ∀ w : WriteMessage, w.protocol_version = ver →
      serEach serT v w = .ok ⟨ver, w.buf ++ encList enc v⟩ := by
  induction v with
  | nil =>
    intro w hw
    simp only [serEach, encList, List.append_nil]
    rw [← hw]
  | cons x xs ih =>
    intro w hw
    have hx := h x (by simp)
    simp only [serEach]
    rw [hx w hw, ebind_ok, ih (fun y hy => h y (by simp [hy])) _ rfl]
    simp [encList]

theorem read_n_consumes {d : DeserM α} {enc : α → List Nat} (ver : Nat)
    (v : List α) (h : ∀ x ∈ v, DeserConsumes d ver x (enc x)) :
    DeserConsumes (read_n_values d v.length) ver v (encList enc v) := by
  induction v with
  | nil =>
    intro m rest hver hav
    simp only [List.length_nil, read_n_values, encList]
    rfl
  | cons x xs ih =>
    intro m rest hver hav
    rw [encList, List.append_assoc] at hav
    have e0 := h x (by simp) m (encList enc xs ++ rest) hver hav
    simp only [List.length_cons, read_n_values, e0, ebind_ok]
    have h1 : (ReceivedMessage.mk m.protocol_version m.buf
        (m.idx + (enc x).length)).available_buf = encList enc xs ++ rest := by
      rw [available_buf_advance m ((enc x).length), hav, List.drop_left]
    have e1 := ih (fun y hy => h y (by simp [hy]))
      (ReceivedMessage.mk m.protocol_version m.buf (m.idx + (enc x).length))
      rest (by rw [← hver]) h1
    rw [e1, ebind_ok]
    simp only [encList, List.length_append]
    have h2 : m.idx + (enc x).length + (encList enc xs).length =
        m.idx + ((enc x).length + (encList enc xs).length) := by omega
    rw [h2]

theorem read_n_short {d : DeserM α} {enc : α → List Nat} (ver : Nat)
    (v : List α) (hc : ∀ x ∈ v, DeserConsumes d ver x (enc x))
    (hs : ∀ x ∈ v, DeserShortFails d ver (enc x)) :
    DeserShortFails (read_n_values d v.length) ver (encList enc v) := by
  induction v with
  | nil =>
    intro m n hn hver hav
    simp [encList] at hn
  | cons x xs ih =>
    intro m n hn hver hav
    rw [encList] at hn hav
    simp only [List.length_append] at hn
    by_cases hcase : n < (enc x).length
    · have htake : (enc x ++ encList enc xs).take n = (enc x).take n := by
        rw [List.take_append_eq_append_take]
        have h2 : n - (enc x).length = 0 := by omega
        rw [h2]
        simp
      rw [htake] at hav
      obtain ⟨e, he⟩ := hs x (by simp) m n hcase hver hav
      exact ⟨e, by simp only [List.length_cons, read_n_values, he, ebind_err]⟩
    · push_neg at hcase
      have htake : (enc x ++ encList enc xs).take n =
          enc x ++ (encList enc xs).take (n - (enc x).length) := by
        rw [List.take_append_eq_append_take]
        rw [List.take_of_length_le hcase]
      rw [htake] at hav
      have e0 := hc x (by simp) m ((encList enc xs).take (n - (enc x).length)) hver hav
      have h1 : (ReceivedMessage.mk m.protocol_version m.buf
          (m.idx + (enc x).length)).available_buf =
          (encList enc xs).take (n - (enc x).length) := by
        rw [available_buf_advance m ((enc x).length), hav, List.drop_left]
      obtain ⟨e, he⟩ := ih (fun y hy => hc y (by simp [hy]))
        (fun y hy => hs y (by simp [hy]))
        (ReceivedMessage.mk m.protocol_version m.buf (m.idx + (enc x).length))
        (n - (enc x).length) (by omega) (by rw [← hver]) h1
      exact ⟨e, by simp only [List.length_cons, read_n_values, e0, ebind_ok, he, ebind_err]⟩

theorem serVec_appends {serT : SerM α} {enc : α → List Nat} (ver : Nat)
    (v : List α) (h : ∀ x ∈ v, SerAppends serT ver x (enc x)) :
    SerAppends (serVec serT) ver v (vecEncBytes enc v) := by
  intro w hw
  simp only [serVec, WriteMessage.write_u16]
  rw [serEach_appends ver v h ⟨w.protocol_version, w.buf ++ u16ToLeBytes v.length⟩ hw]
  simp [vecEncBytes, ← hw]

theorem deserVec_consumes {d : DeserM α} {enc : α → List Nat} (ver : Nat)
    (v : List α) (hlen : v.length < 65536)
    (h : ∀ x ∈ v, DeserConsumes d ver x (enc x)) :
    DeserConsumes (deserVec d) ver v (vecEncBytes enc v) := by
  intro m rest hver hav
  rw [vecEncBytes, List.append_assoc] at hav
  have e0 := deserU16_consumes ver v.length hlen m (encList enc v ++ rest) hver hav
  rw [deserU16] at e0
  have h1 : (ReceivedMessage.mk m.protocol_version m.buf
      (m.idx + (u16ToLeBytes v.length).length)).available_buf =
      encList enc v ++ rest := by
    rw [available_buf_advance, hav, List.drop_left]
  have e1 := read_n_consumes ver v h
    (ReceivedMessage.mk m.protocol_version m.buf (m.idx + (u16ToLeBytes v.length).length))
    rest (by rw [← hver]) h1
  simp only [deserVec, e0, ebind_ok]
  rw [e1]
  simp only [vecEncBytes, List.length_append, u16ToLeBytes, List.length_cons,
    List.length_nil]
  have h2 : m.idx + 2 + (encList enc v).length =
      m.idx + (0 + 1 + 1 + (encList enc v).length) := by omega
  rw [h2]

theorem deserVec_short {d : DeserM α} {enc : α → List Nat} (ver : Nat)
    (v : List α) (hlen : v.length < 65536)
    (hc : ∀ x ∈ v, DeserConsumes d ver x (enc x))
    (hs : ∀ x ∈ v, DeserShortFails d ver (enc x)) :
    DeserShortFails (deserVec d) ver (vecEncBytes enc v) := by
  intro m n hn hver hav
  rw [vecEncBytes] at hn hav
  simp only [List.length_append, u16ToLeBytes, List.length_cons, List.length_nil] at hn
  by_cases hcase : n < 2
  · have htake : ((u16ToLeBytes v.length) ++ encList enc v).take n =
        (u16ToLeBytes v.length).take n := by
      rw [List.take_append_eq_append_take]
      have h2 : n - (u16ToLeBytes v.length).length = 0 := by
        simp only [u16ToLeBytes, List.length_cons, List.length_nil]; omega
      rw [h2]
      simp
    rw [htake] at hav
    obtain ⟨e, he⟩ := read_u16_fail m (by
      rw [hav]
      simp only [u16ToLeBytes]
      simp
      omega)
    exact ⟨e, by simp only [deserVec, he, ebind_err]⟩
  · push_neg at hcase
    have htake : ((u16ToLeBytes v.length) ++ encList enc v).take n =
        u16ToLeBytes v.length ++ (encList enc v).take (n - 2) := by
      rw [List.take_append_eq_append_take]
      have h2 : (u16ToLeBytes v.length).length = 2 := by simp [u16ToLeBytes]
      rw [List.take_of_length_le (by omega), h2]
    rw [htake] at hav
    have e0 := deserU16_consumes ver v.length hlen m ((encList enc v).take (n - 2))
      hver hav
    rw [deserU16] at e0
    have h1 : (ReceivedMessage.mk m.protocol_version m.buf
        (m.idx + (u16ToLeBytes v.length).length)).available_buf =
        (encList enc v).take (n - 2) := by
      rw [available_buf_advance, hav, List.drop_left]
    obtain ⟨e, he⟩ := read_n_short ver v hc hs
      (ReceivedMessage.mk m.protocol_version m.buf (m.idx + (u16ToLeBytes v.length).length))
      (n - 2) (by omega) (by rw [← hver]) h1
    exact ⟨e, by simp only [deserVec, e0, ebind_ok, he, ebind_err]⟩

/-! ## Slice and fixed-size array codec specification -/

theorem serSlice_appends {serT : SerM α} {enc : α → List Nat} (ver : Nat)
    (v : List α) (hlen : v.length ≤ 65535)
    (h : ∀ x ∈ v, SerAppends serT ver x (enc x)) :
    SerAppends (serSlice serT) ver v (vecEncBytes enc v) := by
  intro w hw
  simp only [serSlice, if_neg (by omega : ¬ v.length > 65535)]
  simp only [WriteMessage.write_u16]
  rw [serEach_appends ver v h ⟨w.protocol_version, w.buf ++ u16ToLeBytes v.length⟩ hw]
  simp [vecEncBytes, ← hw]

theorem serSlice_too_large {serT : SerM α} (v : List α) (hlen : v.length > 65535)
    (w : WriteMessage) :
    serSlice serT v w = .error (.ProtocolError "Slice is too large to encode") := by
  simp only [serSlice, if_pos hlen]

theorem deserArray_consumes {d : DeserM α} {enc : α → List Nat} (ver : Nat)
    (v : List α) (h : ∀ x ∈ v, DeserConsumes d ver x (enc x)) :
    DeserConsumes (deserArray d v.length) ver v (encList enc v) :=
  read_n_consumes ver v h

theorem deserArray_short {d : DeserM α} {enc : α → List Nat} (ver : Nat)
    (v : List α) (hc : ∀ x ∈ v, DeserConsumes d ver x (enc x))
    (hs : ∀ x ∈ v, DeserShortFails d ver (enc x)) :
    DeserShortFails (deserArray d v.length) ver (encList enc v) :=
  read_n_short ver v hc hs

end OpenRgb2

namespace OpenRgb2

/-! ## String codec specification -/

/-- The wire bytes of a string: a u16 length counting the bytes plus the NUL
terminator, the UTF-8 bytes, then the NUL byte. -/
def strEncBytes (s : List Nat) : List Nat :=
  u16ToLeBytes (s.length % 65536 + 1) ++ s ++ [0]

theorem serString_appends (ver : Nat) (s : List Nat) :
    SerAppends serString ver s (strEncBytes s) := by
  intro w hw
  simp [serString, serRawString, WriteMessage.write_u16, WriteMessage.write_slice,
    WriteMessage.write_u8, strEncBytes, ← hw]

theorem deserString_consumes (ver : Nat) (s : List Nat)
    (hlen : s.length + 1 < 65536) (hvalid : utf8Valid s = true) :
    DeserConsumes deserString ver s (strEncBytes s) := by
  intro m rest hver hav
  rw [strEncBytes, Nat.mod_eq_of_lt (by omega : s.length < 65536)] at hav
  rw [List.append_assoc, List.append_assoc] at hav
  have e0 := deserU16_consumes ver (s.length + 1) hlen m (s ++ ([0] ++ rest)) hver hav
  rw [deserU16] at e0
  have h1 : (ReceivedMessage.mk m.protocol_version m.buf
      (m.idx + (u16ToLeBytes (s.length + 1)).length)).available_buf =
      s ++ ([0] ++ rest) := by
    rw [available_buf_advance, hav, List.drop_left]
  simp only [deserString, e0, ebind_ok]
  rw [h1]
  have hnotshort : ¬ ((s ++ ([0] ++ rest)).length < s.length + 1) := by
    simp
  rw [if_neg hnotshort]
  have htake : (s ++ ([0] ++ rest)).take (s.length + 1) = s ++ [0] := by
    rw [List.take_append_eq_append_take, List.take_of_length_le (by omega)]
    simp
  rw [htake]
  have hdl : (s ++ [0]).dropLast = s := by
    simp
  rw [hdl, if_pos hvalid]
  simp only [strEncBytes, u16ToLeBytes, List.length_append, List.length_cons,
    List.length_nil]
  have h2 : m.idx + (0 + 1 + 1) + (s.length + 1) =
      m.idx + (0 + 1 + 1 + s.length + 1) := by omega
  rw [h2]

theorem deserString_short (ver : Nat) (s : List Nat)
    (hlen : s.length + 1 < 65536) :
    DeserShortFails deserString ver (strEncBytes s) := by
  intro m n hn hver hav
  rw [strEncBytes, Nat.mod_eq_of_lt (by omega : s.length < 65536)] at hn hav
  simp only [List.length_append, u16ToLeBytes, List.length_cons, List.length_nil] at hn
  by_cases hcase : n < 2
  · have htake : ((u16ToLeBytes (s.length + 1)) ++ s ++ [0]).take n =
        (u16ToLeBytes (s.length + 1)).take n := by
      rw [List.append_assoc, List.take_append_eq_append_take]
      have h2 : n - (u16ToLeBytes (s.length + 1)).length = 0 := by
        simp only [u16ToLeBytes, List.length_cons, List.length_nil]; omega
      rw [h2]
      simp
    rw [htake] at hav
    obtain ⟨e, he⟩ := read_u16_fail m (by
      rw [hav]
      simp only [u16ToLeBytes]
      simp
      omega)
    exact ⟨e, by simp only [deserString, he, ebind_err]⟩
  · push_neg at hcase
    have htake : ((u16ToLeBytes (s.length + 1)) ++ s ++ [0]).take n =
        u16ToLeBytes (s.length + 1) ++ (s ++ [0]).take (n - 2) := by
      rw [List.append_assoc, List.take_append_eq_append_take]
      have h2 : (u16ToLeBytes (s.length + 1)).length = 2 := by simp [u16ToLeBytes]
      rw [List.take_of_length_le (by omega), h2]
    rw [htake] at hav
    have e0 := deserU16_consumes ver (s.length + 1) hlen m ((s ++ [0]).take (n - 2))
      hver hav
    rw [deserU16] at e0
    have h1 : (ReceivedMessage.mk m.protocol_version m.buf
        (m.idx + (u16ToLeBytes (s.length + 1)).length)).available_buf =
        (s ++ [0]).take (n - 2) := by
      rw [available_buf_advance, hav, List.drop_left]
    refine ⟨.CommunicationError "failed to fill whole buffer", ?_⟩
    simp only [deserString, e0, ebind_ok]
    rw [h1]
    have hshort : ((s ++ [0]).take (n - 2)).length < s.length + 1 := by
      rw [List.length_take]
      simp
      omega
    rw [if_pos hshort]

/-! ## SegmentData codec specification -/

/-- The wire bytes of a `SegmentData` (protocol version at least 4): name,
type, start index, LED count. -/
def SegmentData.encBytes (s : SegmentData) : List Nat :=
  strEncBytes s.name ++ ZoneType.encBytes s.seg_type ++
    u32ToLeBytes s.start_idx ++ u32ToLeBytes s.led_count

theorem segmentData_ser_appends (ver : Nat) (s : SegmentData) (hver : 4 ≤ ver) :
    SerAppends SegmentData.serialize ver s s.encBytes := by
  intro w hw
  simp only [SegmentData.serialize, hw, if_neg (by omega : ¬ ver < 4)]
  rw [serString_appends ver s.name w hw, ebind_ok]
  rw [zoneType_ser_appends ver s.seg_type _ rfl, ebind_ok]
  rw [serU32_appends ver s.start_idx _ rfl, ebind_ok]
  rw [serU32_appends ver s.led_count _ rfl]
  simp [SegmentData.encBytes, ZoneType.encBytes]

theorem segmentData_deser_consumes (ver : Nat) (s : SegmentData) (hver : 4 ≤ ver)
    (hname : s.name.length + 1 < 65536) (hvalid : utf8Valid s.name = true)
    (hstart : s.start_idx < 4294967296) (hcount : s.led_count < 4294967296)
    (hid : s.id = usizeMax) :
    DeserConsumes SegmentData.deserialize ver s s.encBytes := by
  intro m rest hmver hav
  rw [SegmentData.encBytes, List.append_assoc, List.append_assoc,
    List.append_assoc] at hav
  have e0 := deserString_consumes ver s.name hname hvalid m _ hmver hav
  have h1 : (ReceivedMessage.mk m.protocol_version m.buf
      (m.idx + (strEncBytes s.name).length)).available_buf =
      ZoneType.encBytes s.seg_type ++ (u32ToLeBytes s.start_idx ++
        (u32ToLeBytes s.led_count ++ rest)) := by
    rw [available_buf_advance, hav, List.drop_left]
  have e1 := zoneType_deser_consumes ver s.seg_type _ _ (by rw [← hmver]) h1
  have h2 : (ReceivedMessage.mk m.protocol_version m.buf
      (m.idx + (strEncBytes s.name).length + (ZoneType.encBytes s.seg_type).length)).available_buf =
      u32ToLeBytes s.start_idx ++ (u32ToLeBytes s.led_count ++ rest) := by
    rw [show m.idx + (strEncBytes s.name).length + (ZoneType.encBytes s.seg_type).length =
      m.idx + ((strEncBytes s.name).length + (ZoneType.encBytes s.seg_type).length) by omega]
    rw [available_buf_advance, hav]
    rw [show (strEncBytes s.name).length + (ZoneType.encBytes s.seg_type).length =
      (strEncBytes s.name ++ ZoneType.encBytes s.seg_type).length by
        simp only [List.length_append]]
    rw [← List.append_assoc, List.drop_left]
  have e2 := deserU32_consumes ver s.start_idx hstart _ _ (by rw [← hmver]) h2
  have h3 : (ReceivedMessage.mk m.protocol_version m.buf
      (m.idx + (strEncBytes s.name).length + (ZoneType.encBytes s.seg_type).length +
        (u32ToLeBytes s.start_idx).length)).available_buf =
      u32ToLeBytes s.led_count ++ rest := by
    rw [show m.idx + (strEncBytes s.name).length + (ZoneType.encBytes s.seg_type).length +
      (u32ToLeBytes s.start_idx).length =
      m.idx + ((strEncBytes s.name).length + (ZoneType.encBytes s.seg_type).length +
        (u32ToLeBytes s.start_idx).length) by omega]
    rw [available_buf_advance, hav]
    rw [show (strEncBytes s.name).length + (ZoneType.encBytes s.seg_type).length +
      (u32ToLeBytes s.start_idx).length =
      ((strEncBytes s.name ++ ZoneType.encBytes s.seg_type) ++ u32ToLeBytes s.start_idx).length
      by simp only [List.length_append]]
    rw [← List.append_assoc, ← List.append_assoc, List.drop_left]
  have e3 := deserU32_consumes ver s.led_count hcount _ _ (by rw [← hmver]) h3
  simp only [SegmentData.deserialize,
    if_neg (show ¬ m.protocol_version < 4 by rw [hmver]; omega)]
  simp only [e0, ebind_ok, e1, e2, e3]
  have heq : s = SegmentData.mk s.name s.seg_type s.start_idx s.led_count usizeMax := by
    cases s
    simp_all
  rw [← heq]
  simp only [SegmentData.encBytes, List.length_append]
  have h4 : m.idx + (strEncBytes s.name).length + (ZoneType.encBytes s.seg_type).length +
      (u32ToLeBytes s.start_idx).length + (u32ToLeBytes s.led_count).length =
      m.idx + ((strEncBytes s.name).length + (ZoneType.encBytes s.seg_type).length +
        (u32ToLeBytes s.start_idx).length + (u32ToLeBytes s.led_count).length) := by omega
  rw [h4]

/-! ## ProtocolOption codec specification -/

theorem protocolOption_deser_low {V : Nat} (d : DeserM α) (m : ReceivedMessage)
    (h : m.protocol_version < V) :
    ProtocolOption.deserialize V d m = .ok (.UnsupportedVersion, m) := by
  simp [ProtocolOption.deserialize, h]

theorem protocolOption_deser_high_ok {V : Nat} (d : DeserM α) (m : ReceivedMessage)
    (h : ¬ m.protocol_version < V) (v : α) (m' : ReceivedMessage)
    (hd : d m = .ok (v, m')) :
    ProtocolOption.deserialize V d m = .ok (.Some v, m') := by
  simp [ProtocolOption.deserialize, h, hd, ebind_ok]

theorem protocolOption_deser_high_err {V : Nat} (d : DeserM α) (m : ReceivedMessage)
    (h : ¬ m.protocol_version < V) (e : OpenRgbError) (hd : d m = .error e) :
    ProtocolOption.deserialize V d m = .error e := by
  simp [ProtocolOption.deserialize, h, hd, ebind_err]

theorem protocolOption_ser_low {V : Nat} (serT : SerM α)
    (po : ProtocolOption V α) (w : WriteMessage) (h : w.protocol_version < V) :
    ProtocolOption.serialize V serT po w = .ok w := by
  simp [ProtocolOption.serialize, h]

theorem protocolOption_ser_absent {V : Nat} (serT : SerM α) (w : WriteMessage) :
    ProtocolOption.serialize V serT .UnsupportedVersion w = .ok w := by
  unfold ProtocolOption.serialize
  split <;> rfl

theorem protocolOption_ser_high_some {V : Nat} (serT : SerM α) (v : α)
    (w : WriteMessage) (h : ¬ w.protocol_version < V) :
    ProtocolOption.serialize V serT (.Some v) w = serT v w := by
  simp [ProtocolOption.serialize, h]

end OpenRgb2

namespace OpenRgb2

/-! ## Cursor safety: a successful decode never moves the cursor past the
buffer end, and never touches the buffer or the version. -/

def DeserBounded (d : DeserM α) : Prop :=
  ∀ m x m', d m = .ok (x, m') →
    m'.protocol_version = m.protocol_version ∧ m'.buf = m.buf ∧
    m.idx ≤ m'.idx ∧ m'.idx ≤ max m.idx m.buf.length

theorem avail_len (m : ReceivedMessage) :
    m.available_buf.length = m.buf.length - m.idx := by
  simp [ReceivedMessage.available_buf]

theorem ebind_ok_inv {r : Except ε α} {f : α → Except ε β} {b : β}
    (h : (r >>= f) = .ok b) : ∃ a, r = .ok a ∧ f a = .ok b := by
  cases r with
  | error e => rw [ebind_err] at h; exact absurd h (by simp)
  | ok a => exact ⟨a, rfl, by rwa [ebind_ok] at h⟩

theorem read_u8_bounded : DeserBounded ReceivedMessage.read_u8 := by
  intro m x m' h
  unfold ReceivedMessage.read_u8 at h
  rcases hv : m.available_buf with _ | ⟨b, t⟩ <;> rw [hv] at h
  · exact absurd h (by simp)
  · have hl := avail_len m
    rw [hv] at hl
    simp only [List.length_cons] at hl
    obtain ⟨hx, hm⟩ := by simpa using h
    subst hm
    refine ⟨rfl, rfl, ?_, ?_⟩
    · show m.idx ≤ m.idx + 1
      omega
    · show m.idx + 1 ≤ max m.idx m.buf.length
      omega

theorem read_u16_bounded : DeserBounded ReceivedMessage.read_u16 := by
  intro m x m' h
  unfold ReceivedMessage.read_u16 at h
  rcases hv : m.available_buf with _ | ⟨b0, _ | ⟨b1, t⟩⟩ <;> rw [hv] at h
  · exact absurd h (by simp)
  · exact absurd h (by simp)
  · have hl := avail_len m
    rw [hv] at hl
    simp only [List.length_cons] at hl
    obtain ⟨hx, hm⟩ := by simpa using h
    subst hm
    refine ⟨rfl, rfl, ?_, ?_⟩
    · show m.idx ≤ m.idx + 2
      omega
    · show m.idx + 2 ≤ max m.idx m.buf.length
      omega

theorem read_u32_bounded : DeserBounded ReceivedMessage.read_u32 := by
  intro m x m' h
  unfold ReceivedMessage.read_u32 at h
  rcases hv : m.available_buf with _ | ⟨b0, _ | ⟨b1, _ | ⟨b2, _ | ⟨b3, t⟩⟩⟩⟩ <;> rw [hv] at h
  · exact absurd h (by simp)
  · exact absurd h (by simp)
  · exact absurd h (by simp)
  · exact absurd h (by simp)
  · have hl := avail_len m
    rw [hv] at hl
    simp only [List.length_cons] at hl
    obtain ⟨hx, hm⟩ := by simpa using h
    subst hm
    refine ⟨rfl, rfl, ?_, ?_⟩
    · show m.idx ≤ m.idx + 4
      omega
    · show m.idx + 4 ≤ max m.idx m.buf.length
      omega

theorem color_deser_bounded : DeserBounded Color.deserialize := by
  intro m x m' h
  unfold Color.deserialize at h
  obtain ⟨⟨r, m1⟩, h0, h⟩ := ebind_ok_inv h
  simp only [] at h
  obtain ⟨⟨g, m2⟩, h1, h⟩ := ebind_ok_inv h
  simp only [] at h
  obtain ⟨⟨b, m3⟩, h2, h⟩ := ebind_ok_inv h
  simp only [] at h
  obtain ⟨⟨p, m4⟩, h3, h⟩ := ebind_ok_inv h
  simp only [] at h
  obtain ⟨hx, hm⟩ := by simpa using h
  subst hm
  obtain ⟨q0, q1, q2, q3⟩ := read_u8_bounded m _ _ h0
  obtain ⟨r0, r1, r2, r3⟩ := read_u8_bounded m1 _ _ h1
  obtain ⟨s0, s1, s2, s3⟩ := read_u8_bounded m2 _ _ h2
  obtain ⟨t0, t1, t2, t3⟩ := read_u8_bounded m3 _ _ h3
  have l1 : m1.buf.length = m.buf.length := by rw [q1]
  have l2 : m2.buf.length = m1.buf.length := by rw [r1]
  have l3 : m3.buf.length = m2.buf.length := by rw [s1]
  exact ⟨by rw [t0, s0, r0, q0], by rw [t1, s1, r1, q1], by omega, by omega⟩

theorem deserString_bounded : DeserBounded deserString := by
  intro m x m' h
  unfold deserString at h
  obtain ⟨⟨len, m1⟩, h0, h⟩ := ebind_ok_inv h
  simp only [] at h
  by_cases hc : m1.available_buf.length < len
  · rw [if_pos hc] at h
    exact absurd h (by simp)
  · rw [if_neg hc] at h
    by_cases hu : utf8Valid (m1.available_buf.take len).dropLast = true
    · rw [if_pos hu] at h
      obtain ⟨hx, hm⟩ := by simpa using h
      subst hm
      obtain ⟨q0, q1, q2, q3⟩ := read_u16_bounded m _ _ h0
      have hl := avail_len m1
      refine ⟨q0, q1, ?_, ?_⟩
      · show m.idx ≤ m1.idx + len
        omega
      · show m1.idx + len ≤ max m.idx m.buf.length
        rw [q1] at hl
        omega
    · rw [if_neg hu] at h
      exact absurd h (by simp)

theorem deviceType_deser_bounded : DeserBounded DeviceType.deserialize := by
  intro m x m' h
  unfold DeviceType.deserialize at h
  obtain ⟨⟨raw, m1⟩, h0, h⟩ := ebind_ok_inv h
  simp only [] at h
  rcases h1 : DeviceType.tryFromU32 raw with e | v <;> rw [h1] at h
  · exact absurd h (by simp)
  · obtain ⟨hx, hm⟩ := by simpa using h
    subst hm
    exact read_u32_bounded m _ _ h0

theorem zoneType_deser_bounded : DeserBounded ZoneType.deserialize := by
  intro m x m' h
  unfold ZoneType.deserialize at h
  obtain ⟨⟨raw, m1⟩, h0, h⟩ := ebind_ok_inv h
  simp only [] at h
  rcases h1 : ZoneType.tryFromU32 raw with e | v <;> rw [h1] at h
  · exact absurd h (by simp)
  · obtain ⟨hx, hm⟩ := by simpa using h
    subst hm
    exact read_u32_bounded m _ _ h0

theorem flagSet_deser_bounded (mask : Nat) : DeserBounded (deserFlagSet mask) := by
  intro m x m' h
  unfold deserFlagSet at h
  obtain ⟨⟨value, m1⟩, h0, h⟩ := ebind_ok_inv h
  simp only [] at h
  by_cases hc : value &&& mask = value
  · rw [if_pos hc] at h
    obtain ⟨hx, hm⟩ := by simpa using h
    subst hm
    exact read_u32_bounded m _ _ h0
  · rw [if_neg hc] at h
    exact absurd h (by simp)

theorem read_n_bounded {d : DeserM α} (hd : DeserBounded d) (n : Nat) :
    DeserBounded (read_n_values d n) := by
  induction n with
  | zero =>
    intro m x m' h
    unfold read_n_values at h
    obtain ⟨hx, hm⟩ := by simpa using h
    subst hm
    exact ⟨rfl, rfl, le_refl _, le_max_left _ _⟩
  | succ k ih =>
    intro m x m' h
    unfold read_n_values at h
    obtain ⟨⟨a, m1⟩, h0, h⟩ := ebind_ok_inv h
    simp only [] at h
    obtain ⟨⟨xs, m2⟩, h1, h⟩ := ebind_ok_inv h
    simp only [] at h
    obtain ⟨hx, hm⟩ := by simpa using h
    subst hm
    obtain ⟨q0, q1, q2, q3⟩ := hd m _ _ h0
    obtain ⟨r0, r1, r2, r3⟩ := ih m1 _ _ h1
    refine ⟨by rw [r0, q0], by rw [r1, q1], by omega, ?_⟩
    rw [q1] at r3
    omega

theorem deserVec_bounded {d : DeserM α} (hd : DeserBounded d) :
    DeserBounded (deserVec d) := by
  intro m x m' h
  unfold deserVec at h
  obtain ⟨⟨len, m1⟩, h0, h⟩ := ebind_ok_inv h
  simp only [] at h
  obtain ⟨q0, q1, q2, q3⟩ := read_u16_bounded m _ _ h0
  obtain ⟨r0, r1, r2, r3⟩ := read_n_bounded hd len m1 _ _ h
  refine ⟨by rw [r0, q0], by rw [r1, q1], by omega, ?_⟩
  rw [q1] at r3
  omega

theorem deserArray_bounded {d : DeserM α} (hd : DeserBounded d) (n : Nat) :
    DeserBounded (deserArray d n) :=
  read_n_bounded hd n

theorem segmentData_deser_bounded : DeserBounded SegmentData.deserialize := by
  intro m x m' h
  unfold SegmentData.deserialize at h
  by_cases hv : m.protocol_version < 4
  · rw [if_pos hv] at h
    exact absurd h (by simp)
  rw [if_neg hv] at h
  obtain ⟨⟨name, m1⟩, h0, h⟩ := ebind_ok_inv h
  simp only [] at h
  obtain ⟨⟨zt, m2⟩, h1, h⟩ := ebind_ok_inv h
  simp only [] at h
  obtain ⟨⟨si, m3⟩, h2, h⟩ := ebind_ok_inv h
  simp only [] at h
  obtain ⟨⟨lc, m4⟩, h3, h⟩ := ebind_ok_inv h
  simp only [] at h
  obtain ⟨hx, hm⟩ := by simpa using h
  subst hm
  obtain ⟨q0, q1, q2, q3⟩ := deserString_bounded m _ _ h0
  obtain ⟨r0, r1, r2, r3⟩ := zoneType_deser_bounded m1 _ _ h1
  obtain ⟨s0, s1, s2, s3⟩ := read_u32_bounded m2 _ _ h2
  obtain ⟨t0, t1, t2, t3⟩ := read_u32_bounded m3 _ _ h3
  have l1 : m1.buf.length = m.buf.length := by rw [q1]
  have l2 : m2.buf.length = m1.buf.length := by rw [r1]
  have l3 : m3.buf.length = m2.buf.length := by rw [s1]
  exact ⟨by rw [t0, s0, r0, q0], by rw [t1, s1, r1, q1], by omega, by omega⟩

theorem protocolOption_deser_bounded {V : Nat} {d : DeserM α}
    (hd : DeserBounded d) : DeserBounded (ProtocolOption.deserialize V d) := by
  intro m x m' h
  unfold ProtocolOption.deserialize at h
  by_cases hv : m.protocol_version < V
  · rw [if_pos hv] at h
    obtain ⟨hx, hm⟩ := by simpa using h
    subst hm
    exact ⟨rfl, rfl, le_refl _, le_max_left _ _⟩
  rw [if_neg hv] at h
  obtain ⟨⟨v, m1⟩, h0, h⟩ := ebind_ok_inv h
  simp only [] at h
  obtain ⟨hx, hm⟩ := by simpa using h
  subst hm
  exact hd m _ _ h0

end OpenRgb2

namespace OpenRgb2

/-! ## Helper lemmas for the claim theorems -/

/-- Round-trip assembly: serializing into a fresh buffer and deserializing
the produced bytes from a fresh cursor returns the value, consuming the whole
buffer. -/
theorem roundtrip_of {ser : SerM α} {d : DeserM α} {ver : Nat} {x : α}
    {bs : List Nat} (hs : SerAppends ser ver x bs)
    (hd : DeserConsumes d ver x bs) :
    ser x (WriteMessage.new ver) = .ok ⟨ver, bs⟩ ∧
    d (ReceivedMessage.new bs ver) = .ok (x, ⟨ver, bs, bs.length⟩) := by
  constructor
  · have h := hs (WriteMessage.new ver) rfl
    simpa [WriteMessage.new] using h
  · have h := hd (ReceivedMessage.new bs ver) [] rfl
      (by simp [ReceivedMessage.new, ReceivedMessage.available_buf])
    simpa [ReceivedMessage.new] using h

theorem encList_append (enc : α → List Nat) (a b : List α) :
    encList enc (a ++ b) = encList enc a ++ encList enc b := by
  induction a with
  | nil => simp [encList]
  | cons x xs ih => simp [encList, ih]

/-- `set_colors` always succeeds and overlays `cs` at `offset`, growing the
buffer with default colors when needed. -/
theorem set_colors_spec (s : UpdateLedCommand) (offset : Nat) (cs : List Color) :
    ∃ s' : UpdateLedCommand, s.set_colors offset cs = .ok s' ∧
      s'.controller = s.controller ∧
      s'.colors.length = max s.colors.length (offset + cs.length) := by
  unfold UpdateLedCommand.set_colors
  by_cases hc : s.colors.length < offset + cs.length
  · refine ⟨_, rfl, rfl, ?_⟩
    rw [if_pos hc]
    simp [List.length_take, List.length_drop, List.length_append,
      List.length_replicate]
    omega
  · refine ⟨_, rfl, rfl, ?_⟩
    rw [if_neg hc]
    simp [List.length_take, List.length_drop, List.length_append]
    omega

end OpenRgb2

namespace OpenRgb2

/-- Claim C1, as stated, is false: for fixed-size arrays `[T; N]` the
serializer delegates to the slice impl and writes a u16 length prefix, but
the array deserializer reads no prefix, so decode(encode(x)) returns the
prefix bytes as data. Witnessed at `[7, 8, 9] : [u8; 3]`: the encoding is
`[3, 0, 7, 8, 9]` and decoding it as `[u8; 3]` yields `[3, 0, 7] ≠ [7, 8, 9]`. -/
theorem c1_counterexample :
    serArray serU8 [7, 8, 9] (WriteMessage.new 5) = .ok ⟨5, [3, 0, 7, 8, 9]⟩ ∧
    deserArray deserU8 3 (ReceivedMessage.new [3, 0, 7, 8, 9] 5) =
      .ok ([3, 0, 7], ⟨5, [3, 0, 7, 8, 9], 3⟩) ∧
    ([3, 0, 7] : List Nat) ≠ [7, 8, 9] :=
  ⟨rfl, rfl, by decide⟩

/-- Claim C1 (amended): decode(encode(x)) = x at the same protocol version
holds for colors, strings (including the empty string), enums at valid
discriminants, flag sets, sequences and nested structures whose non-wire
assigned-index field is at its decoded default — but not for fixed-size
arrays, whose encoding carries a u16 length prefix the decoder does not
consume (see the counterexample). -/
theorem c1_amended (ver : Nat)
    (c : Color) (hr : c.r < 256) (hg : c.g < 256) (hb : c.b < 256)
    (s : List Nat) (hslen : s.length + 1 < 65536) (hsval : utf8Valid s = true)
    (dt : DeviceType)
    (bits : Nat) (hbits : bits < 4294967296)
    (hmask : bits &&& controllerFlagsMask = bits)
    (v : List Color) (hvlen : v.length < 65536)
    (hv : ∀ x ∈ v, x.r < 256 ∧ x.g < 256 ∧ x.b < 256)
    (seg : SegmentData) (hver4 : 4 ≤ ver) (hsegname : seg.name.length + 1 < 65536)
    (hsegval : utf8Valid seg.name = true) (hsi : seg.start_idx < 4294967296)
    (hlc : seg.led_count < 4294967296) (hsegid : seg.id = usizeMax) :
    (Color.serialize c (WriteMessage.new ver) = .ok ⟨ver, Color.encBytes c⟩ ∧
      Color.deserialize (ReceivedMessage.new (Color.encBytes c) ver) =
        .ok (c, ⟨ver, Color.encBytes c, (Color.encBytes c).length⟩)) ∧
    (serString s (WriteMessage.new ver) = .ok ⟨ver, strEncBytes s⟩ ∧
      deserString (ReceivedMessage.new (strEncBytes s) ver) =
        .ok (s, ⟨ver, strEncBytes s, (strEncBytes s).length⟩)) ∧
    (DeviceType.serialize dt (WriteMessage.new ver) = .ok ⟨ver, dt.encBytes⟩ ∧
      DeviceType.deserialize (ReceivedMessage.new dt.encBytes ver) =
        .ok (dt, ⟨ver, dt.encBytes, dt.encBytes.length⟩)) ∧
    (serFlagSet bits (WriteMessage.new ver) = .ok ⟨ver, u32ToLeBytes bits⟩ ∧
      deserFlagSet controllerFlagsMask (ReceivedMessage.new (u32ToLeBytes bits) ver) =
        .ok (bits, ⟨ver, u32ToLeBytes bits, (u32ToLeBytes bits).length⟩)) ∧
    (serVec Color.serialize v (WriteMessage.new ver) =
        .ok ⟨ver, vecEncBytes Color.encBytes v⟩ ∧
      deserVec Color.deserialize (ReceivedMessage.new (vecEncBytes Color.encBytes v) ver) =
        .ok (v, ⟨ver, vecEncBytes Color.encBytes v,
          (vecEncBytes Color.encBytes v).length⟩)) ∧
    (SegmentData.serialize seg (WriteMessage.new ver) = .ok ⟨ver, seg.encBytes⟩ ∧
      SegmentData.deserialize (ReceivedMessage.new seg.encBytes ver) =
        .ok (seg, ⟨ver, seg.encBytes, seg.encBytes.length⟩)) := by
  refine ⟨?_, ?_, ?_, ?_, ?_, ?_⟩
  · exact roundtrip_of (color_ser_appends ver c) (color_deser_consumes ver c hr hg hb)
  · exact roundtrip_of (serString_appends ver s) (deserString_consumes ver s hslen hsval)
  · exact roundtrip_of (deviceType_ser_appends ver dt) (deviceType_deser_consumes ver dt)
  · exact roundtrip_of (flagSet_ser_appends ver bits)
      (flagSet_deser_consumes ver controllerFlagsMask bits hbits hmask)
  · exact roundtrip_of
      (serVec_appends ver v (fun x _ => color_ser_appends ver x))
      (deserVec_consumes ver v hvlen
        (fun x hx => color_deser_consumes ver x (hv x hx).1 (hv x hx).2.1 (hv x hx).2.2))
  · exact roundtrip_of (segmentData_ser_appends ver seg hver4)
      (segmentData_deser_consumes ver seg hver4 hsegname hsegval hsi hlc hsegid)

/-- Claim C1 witness: the amended round-trip at protocol version 5 for a
concrete color, string, enum, flag set, color vector and segment. -/
theorem c1_witness :
    (Color.serialize ⟨1, 2, 3⟩ (WriteMessage.new 5) =
        .ok ⟨5, Color.encBytes ⟨1, 2, 3⟩⟩ ∧
      Color.deserialize (ReceivedMessage.new (Color.encBytes ⟨1, 2, 3⟩) 5) =
        .ok (⟨1, 2, 3⟩, ⟨5, Color.encBytes ⟨1, 2, 3⟩, (Color.encBytes ⟨1, 2, 3⟩).length⟩)) ∧
    (serString [104, 105] (WriteMessage.new 5) = .ok ⟨5, strEncBytes [104, 105]⟩ ∧
      deserString (ReceivedMessage.new (strEncBytes [104, 105]) 5) =
        .ok ([104, 105], ⟨5, strEncBytes [104, 105], (strEncBytes [104, 105]).length⟩)) ∧
    (DeviceType.serialize .Cooler (WriteMessage.new 5) =
        .ok ⟨5, DeviceType.encBytes .Cooler⟩ ∧
      DeviceType.deserialize (ReceivedMessage.new (DeviceType.encBytes .Cooler) 5) =
        .ok (.Cooler, ⟨5, DeviceType.encBytes .Cooler, (DeviceType.encBytes .Cooler).length⟩)) ∧
    (serFlagSet 5 (WriteMessage.new 5) = .ok ⟨5, u32ToLeBytes 5⟩ ∧
      deserFlagSet controllerFlagsMask (ReceivedMessage.new (u32ToLeBytes 5) 5) =
        .ok (5, ⟨5, u32ToLeBytes 5, (u32ToLeBytes 5).length⟩)) ∧
    (serVec Color.serialize [⟨9, 8, 7⟩] (WriteMessage.new 5) =
        .ok ⟨5, vecEncBytes Color.encBytes [⟨9, 8, 7⟩]⟩ ∧
      deserVec Color.deserialize
          (ReceivedMessage.new (vecEncBytes Color.encBytes [⟨9, 8, 7⟩]) 5) =
        .ok ([⟨9, 8, 7⟩], ⟨5, vecEncBytes Color.encBytes [⟨9, 8, 7⟩],
          (vecEncBytes Color.encBytes [⟨9, 8, 7⟩]).length⟩)) ∧
    (SegmentData.serialize ⟨[97], .Linear, 2, 7, usizeMax⟩ (WriteMessage.new 5) =
        .ok ⟨5, SegmentData.encBytes ⟨[97], .Linear, 2, 7, usizeMax⟩⟩ ∧
      SegmentData.deserialize
          (ReceivedMessage.new (SegmentData.encBytes ⟨[97], .Linear, 2, 7, usizeMax⟩) 5) =
        .ok (⟨[97], .Linear, 2, 7, usizeMax⟩,
          ⟨5, SegmentData.encBytes ⟨[97], .Linear, 2, 7, usizeMax⟩,
            (SegmentData.encBytes ⟨[97], .Linear, 2, 7, usizeMax⟩).length⟩)) :=
  c1_amended 5 ⟨1, 2, 3⟩ (by decide) (by decide) (by decide)
    [104, 105] (by decide) (by decide)
    .Cooler
    5 (by decide) (by decide)
    [⟨9, 8, 7⟩] (by decide) (by decide)
    ⟨[97], .Linear, 2, 7, usizeMax⟩ (by decide) (by decide) (by decide)
    (by decide) (by decide) rfl

end OpenRgb2

namespace OpenRgb2

/-- `set_colors` at offset 0 overlays the supplied colors from the start of
the buffer, keeping any longer tail. -/
theorem set_colors_zero (s : UpdateLedCommand) (cs : List Color) :
    s.set_colors 0 cs = .ok ⟨s.controller, cs ++ s.colors.drop cs.length⟩ := by
  simp only [UpdateLedCommand.set_colors]
  by_cases hc : s.colors.length < 0 + cs.length
  · rw [if_pos hc]
    have hd1 : (s.colors ++ List.replicate (0 + cs.length - s.colors.length)
        Color.default).drop (0 + cs.length) = [] := by
      refine List.drop_eq_nil_of_le ?_
      simp
      omega
    have hd2 : s.colors.drop cs.length = [] := by
      refine List.drop_eq_nil_of_le ?_
      omega
    simp [hd1, hd2]
    omega
  · rw [if_neg hc]
    simp

/-- A one-LED controller used as the C2 counterexample device. -/
def oneLedController : Controller :=
  ⟨0, [], 1, [⟨0, [], .Linear, 0, 0, 1, .UnsupportedVersion, .UnsupportedVersion, none⟩]⟩

/-- Claim C2, as stated, is false: the whole-device branch of `add_command`
does not truncate. A controller with `num_leds() = 1` given two colors ends
with both colors in the accumulated buffer (length 2), not just the first. -/
theorem c2_counterexample :
    (UpdateLedCommand.new oneLedController).add_command
        (.Controller 0 [⟨1, 1, 1⟩, ⟨2, 2, 2⟩]) =
      .ok (⟨oneLedController, [⟨1, 1, 1⟩, ⟨2, 2, 2⟩]⟩,
        [Warning.controllerOversized 2 1]) ∧
    oneLedController.num_leds = 1 ∧
    ([(⟨1, 1, 1⟩ : Color), ⟨2, 2, 2⟩]).length = 2 := by
  refine ⟨rfl, rfl, rfl⟩

/-- Claim C2 (amended): queuing an oversized whole-device update is
non-fatal — it emits exactly one warning-level diagnostic and succeeds — but
the extra colors are not truncated: every supplied color is written, so the
accumulated buffer grows to the full input length, past `num_leds()`. -/
theorem c2_amended (s : UpdateLedCommand) (colors : List Color)
    (hover : colors.length > s.controller.num_leds) :
    s.add_command (.Controller s.controller.id colors) =
      .ok (⟨s.controller, colors ++ s.colors.drop colors.length⟩,
        [Warning.controllerOversized colors.length s.controller.num_leds]) ∧
    (colors ++ s.colors.drop colors.length).take colors.length = colors ∧
    s.controller.num_leds < (colors ++ s.colors.drop colors.length).length := by
  refine ⟨?_, ?_, ?_⟩
  · simp only [UpdateLedCommand.add_command, if_pos hover]
    rw [set_colors_zero]
    rfl
  · rw [List.take_append_eq_append_take]
    simp
  · simp
    omega

/-- Claim C2 witness: the amended statement at the concrete one-LED
controller and two colors. -/
theorem c2_witness :
    (UpdateLedCommand.new oneLedController).add_command
        (.Controller (UpdateLedCommand.new oneLedController).controller.id
          [⟨1, 1, 1⟩, ⟨2, 2, 2⟩]) =
      .ok (⟨(UpdateLedCommand.new oneLedController).controller,
          [⟨1, 1, 1⟩, ⟨2, 2, 2⟩] ++
            (UpdateLedCommand.new oneLedController).colors.drop
              ([(⟨1, 1, 1⟩ : Color), ⟨2, 2, 2⟩]).length⟩,
        [Warning.controllerOversized ([(⟨1, 1, 1⟩ : Color), ⟨2, 2, 2⟩]).length
          (UpdateLedCommand.new oneLedController).controller.num_leds]) ∧
    (([⟨1, 1, 1⟩, ⟨2, 2, 2⟩] : List Color) ++
        (UpdateLedCommand.new oneLedController).colors.drop
          ([(⟨1, 1, 1⟩ : Color), ⟨2, 2, 2⟩]).length).take
        ([(⟨1, 1, 1⟩ : Color), ⟨2, 2, 2⟩]).length = [⟨1, 1, 1⟩, ⟨2, 2, 2⟩] ∧
    (UpdateLedCommand.new oneLedController).controller.num_leds <
      (([⟨1, 1, 1⟩, ⟨2, 2, 2⟩] : List Color) ++
        (UpdateLedCommand.new oneLedController).colors.drop
          ([(⟨1, 1, 1⟩ : Color), ⟨2, 2, 2⟩]).length).length :=
  c2_amended (UpdateLedCommand.new oneLedController) [⟨1, 1, 1⟩, ⟨2, 2, 2⟩]
    (by decide)

/-- A two-zone controller (zone sizes 5 and 3) whose second zone holds one
segment at offset 1 of length 2 — the C3 failing input. -/
def segController : Controller :=
  ⟨0, [], 8,
    [⟨0, [], .Linear, 0, 0, 5, .Some [], .UnsupportedVersion, none⟩,
     ⟨1, [], .Linear, 0, 0, 3, .Some [⟨[115], .Linear, 1, 2, 0⟩],
       .UnsupportedVersion, none⟩]⟩

/-- Claim C3: the zone-offset arithmetic is as claimed
(`get_zone_led_offset 1 = 5` for zone sizes `[5, 3]`), but
`add_set_segment_led` computes `led_idx + segment.offset()` without the
zone's offset: on the failing input it writes absolute LED index 1 (the
buffer ends at length 2), while the documented absolute index is
`5 + 1 + 0 = 6`, which is never written. -/
theorem c3_code_bug_eval :
    (UpdateLedCommand.new segController).add_set_segment_led 1 0 0 ⟨7, 7, 7⟩ =
      .ok (⟨segController, [Color.default, ⟨7, 7, 7⟩]⟩, []) ∧
    segController.get_zone_led_offset 1 = .ok 5 ∧
    ((segController.get_zone 1).bind (fun z => z.get_segment 0)).map
      SegmentData.offset = .ok 1 ∧
    ([Color.default, ⟨7, 7, 7⟩] : List Color).get? 1 = some ⟨7, 7, 7⟩ ∧
    ([Color.default, ⟨7, 7, 7⟩] : List Color).get? 6 = none := by
  refine ⟨rfl, rfl, rfl, rfl, rfl⟩

end OpenRgb2

namespace OpenRgb2

/-- Claim C4: cursor-based decoding never reads past the buffer end. For
every codec in the development, (a) decoding any strict truncation of an
encoded value fails with an error — never a partial value — and (b) any
successful decode leaves the buffer and version untouched and the cursor
within the buffer. -/
theorem c4_theorem (ver : Nat) (c : Color)
    (s : List Nat) (hslen : s.length + 1 < 65536)
    (dt : DeviceType) (mask bits : Nat) (V n : Nat)
    (v : List Color) (hvlen : v.length < 65536)
    (hv : ∀ x ∈ v, x.r < 256 ∧ x.g < 256 ∧ x.b < 256) :
    DeserShortFails Color.deserialize ver (Color.encBytes c) ∧
    DeserShortFails deserString ver (strEncBytes s) ∧
    DeserShortFails DeviceType.deserialize ver dt.encBytes ∧
    DeserShortFails (deserFlagSet mask) ver (u32ToLeBytes bits) ∧
    DeserShortFails (deserVec Color.deserialize) ver (vecEncBytes Color.encBytes v) ∧
    DeserShortFails (deserArray Color.deserialize v.length) ver
      (encList Color.encBytes v) ∧
    DeserBounded ReceivedMessage.read_u8 ∧
    DeserBounded ReceivedMessage.read_u16 ∧
    DeserBounded ReceivedMessage.read_u32 ∧
    DeserBounded Color.deserialize ∧
    DeserBounded deserString ∧
    DeserBounded DeviceType.deserialize ∧
    DeserBounded (deserFlagSet mask) ∧
    DeserBounded (deserVec Color.deserialize) ∧
    DeserBounded (deserArray Color.deserialize n) ∧
    DeserBounded SegmentData.deserialize ∧
    DeserBounded (ProtocolOption.deserialize V SegmentData.deserialize) := by
  have hcv : ∀ x ∈ v, DeserConsumes Color.deserialize ver x (Color.encBytes x) :=
    fun x hx => color_deser_consumes ver x (hv x hx).1 (hv x hx).2.1 (hv x hx).2.2
  have hsv : ∀ x ∈ v, DeserShortFails Color.deserialize ver (Color.encBytes x) :=
    fun x _ => color_deser_short ver x
  refine ⟨color_deser_short ver c, deserString_short ver s hslen,
    deviceType_deser_short ver dt, flagSet_deser_short ver mask bits,
    deserVec_short ver v hvlen hcv hsv, deserArray_short ver v hcv hsv,
    read_u8_bounded, read_u16_bounded, read_u32_bounded, color_deser_bounded,
    deserString_bounded, deviceType_deser_bounded, flagSet_deser_bounded mask,
    deserVec_bounded color_deser_bounded,
    deserArray_bounded color_deser_bounded n, segmentData_deser_bounded,
    protocolOption_deser_bounded segmentData_deser_bounded⟩

/-- Claim C4 witness: the truncation-failure and cursor-bound properties at
protocol version 5 for a concrete color, string, enum, flag word and color
vector. -/
theorem c4_witness :
    DeserShortFails Color.deserialize 5 (Color.encBytes ⟨1, 2, 3⟩) ∧
    DeserShortFails deserString 5 (strEncBytes [104, 105]) ∧
    DeserShortFails DeviceType.deserialize 5 (DeviceType.encBytes .Cooler) ∧
    DeserShortFails (deserFlagSet controllerFlagsMask) 5 (u32ToLeBytes 5) ∧
    DeserShortFails (deserVec Color.deserialize) 5
      (vecEncBytes Color.encBytes [⟨9, 8, 7⟩]) ∧
    DeserShortFails (deserArray Color.deserialize ([(⟨9, 8, 7⟩ : Color)]).length) 5
      (encList Color.encBytes [⟨9, 8, 7⟩]) ∧
    DeserBounded ReceivedMessage.read_u8 ∧
    DeserBounded ReceivedMessage.read_u16 ∧
    DeserBounded ReceivedMessage.read_u32 ∧
    DeserBounded Color.deserialize ∧
    DeserBounded deserString ∧
    DeserBounded DeviceType.deserialize ∧
    DeserBounded (deserFlagSet controllerFlagsMask) ∧
    DeserBounded (deserVec Color.deserialize) ∧
    DeserBounded (deserArray Color.deserialize 3) ∧
    DeserBounded SegmentData.deserialize ∧
    DeserBounded (ProtocolOption.deserialize 4 SegmentData.deserialize) :=
  c4_theorem 5 ⟨1, 2, 3⟩ [104, 105] (by decide) .Cooler controllerFlagsMask 5 4 3
    [⟨9, 8, 7⟩] (by decide) (by decide)

end OpenRgb2

namespace OpenRgb2

theorem deviceType_tryFrom_unknown (raw : Nat) (h : 15 ≤ raw) :
    DeviceType.tryFromU32 raw =
      .error (.ProtocolError "Unknown discriminant value for DeviceType") := by
  obtain ⟨k, rfl⟩ : ∃ k, raw = k + 15 := ⟨raw - 15, by omega⟩
  rfl

/-- Claim C5, as stated, is false: a string whose length-prefixed body
extends past the end of the buffer is read through the `std::io::Read`
bridge, whose `UnexpectedEof` converts via `#[from] std::io::Error` into
`CommunicationError` — the I/O category — not `ProtocolError`. Witnessed on
the buffer `[4, 0, 65]` (declared body length 4, one byte available). -/
theorem c5_counterexample :
    deserString (ReceivedMessage.new [4, 0, 65] 5) =
      .error (.CommunicationError "failed to fill whole buffer") ∧
    (OpenRgbError.CommunicationError "failed to fill whole buffer").isProtocolError
      = false ∧
    (OpenRgbError.CommunicationError
      "failed to fill whole buffer").isCommunicationError = true :=
  ⟨rfl, rfl, rfl⟩

/-- Claim C5 (amended): decoding failures raised by the codec's own checks —
truncated u8/u16/u32 reads (including a truncated string length prefix),
invalid UTF-8, an unknown enum discriminant, invalid flag bits — surface as
`ProtocolError`; but a string body extending past the end of the buffer is
the one truncation surfaced as `CommunicationError`, through the
`std::io::Read` bridge's `#[from] std::io::Error` conversion. -/
theorem c5_amended
    (m8 : ReceivedMessage) (h8 : m8.available_buf = [])
    (m16 : ReceivedMessage) (h16 : m16.available_buf.length < 2)
    (m32 : ReceivedMessage) (h32 : m32.available_buf.length < 4)
    (ms : ReceivedMessage) (lens : Nat) (ms1 : ReceivedMessage)
    (hs0 : ms.read_u16 = .ok (lens, ms1))
    (hs1 : ms1.available_buf.length < lens)
    (mu : ReceivedMessage) (lenu : Nat) (mu1 : ReceivedMessage)
    (hu0 : mu.read_u16 = .ok (lenu, mu1))
    (hu1 : ¬ mu1.available_buf.length < lenu)
    (hu2 : utf8Valid ((mu1.available_buf.take lenu).dropLast) = false)
    (me : ReceivedMessage) (raw : Nat) (me1 : ReceivedMessage)
    (he0 : me.read_u32 = .ok (raw, me1)) (he1 : 15 ≤ raw)
    (mf : ReceivedMessage) (mask bits : Nat) (mf1 : ReceivedMessage)
    (hf0 : mf.read_u32 = .ok (bits, mf1)) (hf1 : ¬ bits &&& mask = bits) :
    m8.read_u8 = .error (.ProtocolError "Not enough bytes to read u8") ∧
    m16.read_u16 = .error (.ProtocolError "Not enough bytes to read u16") ∧
    m32.read_u32 = .error (.ProtocolError "Not enough bytes to read u32") ∧
    deserString ms = .error (.CommunicationError "failed to fill whole buffer") ∧
    deserString mu = .error (.ProtocolError "Failed decoding string as UTF-8") ∧
    DeviceType.deserialize me =
      .error (.ProtocolError "Unknown discriminant value for DeviceType") ∧
    deserFlagSet mask mf = .error (.ProtocolError "Received invalid flag") := by
  refine ⟨?_, ?_, ?_, ?_, ?_, ?_, ?_⟩
  · unfold ReceivedMessage.read_u8
    rw [h8]
  · unfold ReceivedMessage.read_u16
    rcases hv : m16.available_buf with _ | ⟨b0, _ | ⟨b1, t⟩⟩
    · rfl
    · rfl
    · rw [hv] at h16; simp at h16; omega
  · unfold ReceivedMessage.read_u32
    rcases hv : m32.available_buf with _ | ⟨b0, _ | ⟨b1, _ | ⟨b2, _ | ⟨b3, t⟩⟩⟩⟩
    all_goals first
      | rfl
      | (rw [hv] at h32; simp at h32; omega)
  · simp only [deserString, hs0, ebind_ok, if_pos hs1]
  · simp only [deserString, hu0, ebind_ok, if_neg hu1, if_neg, hu2,
      Bool.false_eq_true, not_false_eq_true]
  · simp only [DeviceType.deserialize, he0, ebind_ok,
      deviceType_tryFrom_unknown raw he1]
  · simp only [deserFlagSet, hf0, ebind_ok, if_neg hf1]

/-- Claim C5 witness: the amended error-category statement at concrete
buffers (truncated primitives, a string body past the buffer end, invalid
UTF-8, discriminant 15, flag word 8 against the controller mask). -/
theorem c5_witness :
    (ReceivedMessage.new [] 5).read_u8 =
      .error (.ProtocolError "Not enough bytes to read u8") ∧
    (ReceivedMessage.new [1] 5).read_u16 =
      .error (.ProtocolError "Not enough bytes to read u16") ∧
    (ReceivedMessage.new [1, 2, 3] 5).read_u32 =
      .error (.ProtocolError "Not enough bytes to read u32") ∧
    deserString (ReceivedMessage.new [4, 0, 65] 5) =
      .error (.CommunicationError "failed to fill whole buffer") ∧
    deserString (ReceivedMessage.new [2, 0, 255, 0] 5) =
      .error (.ProtocolError "Failed decoding string as UTF-8") ∧
    DeviceType.deserialize (ReceivedMessage.new [15, 0, 0, 0] 5) =
      .error (.ProtocolError "Unknown discriminant value for DeviceType") ∧
    deserFlagSet controllerFlagsMask (ReceivedMessage.new [8, 0, 0, 0] 5) =
      .error (.ProtocolError "Received invalid flag") :=
  c5_amended (ReceivedMessage.new [] 5) rfl
    (ReceivedMessage.new [1] 5) (by decide)
    (ReceivedMessage.new [1, 2, 3] 5) (by decide)
    (ReceivedMessage.new [4, 0, 65] 5) 4 ⟨5, [4, 0, 65], 2⟩ rfl (by decide)
    (ReceivedMessage.new [2, 0, 255, 0] 5) 2 ⟨5, [2, 0, 255, 0], 2⟩ rfl
      (by decide) (by decide)
    (ReceivedMessage.new [15, 0, 0, 0] 5) 15 ⟨5, [15, 0, 0, 0], 4⟩ rfl (by decide)
    (ReceivedMessage.new [8, 0, 0, 0] 5) controllerFlagsMask 8 ⟨5, [8, 0, 0, 0], 4⟩
      rfl (by decide)

end OpenRgb2

namespace OpenRgb2

/-- Claim C6: `ProtocolOption<V, T>` — below the minimum version,
deserializing consumes zero bytes yielding the absent state and serializing
writes zero bytes; an absent value writes zero bytes at any version; at or
above the minimum version, deserializing and serializing a present value
behave exactly as the inner type's own codec. -/
theorem c6_theorem {α : Type} (V : Nat) (d : DeserM α) (serT : SerM α)
    (mLow mHigh : ReceivedMessage) (wLow wHigh : WriteMessage)
    (po : ProtocolOption V α) (v : α)
    (hml : mLow.protocol_version < V) (hwl : wLow.protocol_version < V)
    (hmh : V ≤ mHigh.protocol_version) (hwh : V ≤ wHigh.protocol_version) :
    ProtocolOption.deserialize V d mLow = .ok (.UnsupportedVersion, mLow) ∧
    ProtocolOption.serialize V serT po wLow = .ok wLow ∧
    ProtocolOption.serialize V serT .UnsupportedVersion wHigh = .ok wHigh ∧
    (ProtocolOption.deserialize V d mHigh =
      match d mHigh with
      | .ok (x, m') => .ok (.Some x, m')
      | .error e => .error e) ∧
    ProtocolOption.serialize V serT (.Some v) wHigh = serT v wHigh := by
  refine ⟨protocolOption_deser_low d mLow hml,
    protocolOption_ser_low serT po wLow hwl,
    protocolOption_ser_absent serT wHigh, ?_,
    protocolOption_ser_high_some serT v wHigh (by omega)⟩
  rcases hd : d mHigh with e | ⟨x, m'⟩
  · rw [protocolOption_deser_high_err d mHigh (by omega) e hd]
  · rw [protocolOption_deser_high_ok d mHigh (by omega) x m' hd]

/-- Claim C6 witness: `ProtocolOption<3, u8>` at active versions 2 and 5. -/
theorem c6_witness :
    ProtocolOption.deserialize 3 deserU8 (ReceivedMessage.new [7] 2) =
      .ok (.UnsupportedVersion, ReceivedMessage.new [7] 2) ∧
    ProtocolOption.serialize 3 serU8 (.Some 9) (WriteMessage.new 2) =
      .ok (WriteMessage.new 2) ∧
    ProtocolOption.serialize 3 serU8 .UnsupportedVersion (WriteMessage.new 5) =
      .ok (WriteMessage.new 5) ∧
    (ProtocolOption.deserialize 3 deserU8 (ReceivedMessage.new [7] 5) =
      match deserU8 (ReceivedMessage.new [7] 5) with
      | .ok (x, m') => .ok (.Some x, m')
      | .error e => .error e) ∧
    ProtocolOption.serialize 3 serU8 (.Some 9) (WriteMessage.new 5) =
      serU8 9 (WriteMessage.new 5) :=
  c6_theorem 3 deserU8 serU8 (ReceivedMessage.new [7] 2) (ReceivedMessage.new [7] 5)
    (WriteMessage.new 2) (WriteMessage.new 5) (.Some 9) 9
    (by decide) (by decide) (by decide) (by decide)

/-- `set_colors` of a single LED on an empty buffer: default colors up to the
index, the color at the index. -/
theorem set_colors_single_empty (ctrl : Controller) (i : Nat) (c : Color) :
    (UpdateLedCommand.mk ctrl []).set_colors i [c] =
      .ok ⟨ctrl, List.replicate i Color.default ++ [c]⟩ := by
  simp only [UpdateLedCommand.set_colors]
  rw [if_pos (by simp)]
  simp [List.take_replicate, List.drop_replicate]

/-- `set_colors` of a single LED on a buffer ending exactly at the index:
the prior prefix is kept, the last cell overwritten. -/
theorem set_colors_single_exact (ctrl : Controller) (l : List Color) (i : Nat)
    (c : Color) (hl : l.length = i + 1) :
    (UpdateLedCommand.mk ctrl l).set_colors i [c] = .ok ⟨ctrl, l.take i ++ [c]⟩ := by
  simp only [UpdateLedCommand.set_colors]
  rw [if_neg (by simp [hl])]
  have hd : l.drop (i + 1) = [] := List.drop_eq_nil_of_le (by omega)
  simp [hd]

theorem get?_replicate_lt (d : Color) (i j : Nat) (h : j < i) :
    (List.replicate i d).get? j = some d := by
  induction i generalizing j with
  | zero => omega
  | succ k ih =>
    cases j with
    | zero => rfl
    | succ j' =>
      rw [List.replicate_succ]
      simpa using ih j' (by omega)

/-- Claim C7: queuing `set_led(i, C1)` then `set_led(i, C2)` on a fresh
command: the later call wins (the buffer holds C2 at index i), every index
never touched holds the default black color, and executing sends the entire
buffer as exactly one whole-device update-LEDs packet. -/
theorem c7_theorem (ver : Nat) (ctrl : Controller) (i : Nat) (c1 c2 : Color)
    (hi : i < ctrl.num_leds) (hmax : ctrl.num_leds ≤ 65535) :
    (UpdateLedCommand.new ctrl).add_set_led i c1 =
      .ok (⟨ctrl, List.replicate i Color.default ++ [c1]⟩, []) ∧
    (UpdateLedCommand.mk ctrl (List.replicate i Color.default ++ [c1])).add_set_led
        i c2 = .ok (⟨ctrl, List.replicate i Color.default ++ [c2]⟩, []) ∧
    (List.replicate i Color.default ++ [c2]).get? i = some c2 ∧
    (∀ j, j < i → (List.replicate i Color.default ++ [c2]).get? j =
      some Color.default) ∧
    ∃ payload,
      (UpdateLedCommand.mk ctrl (List.replicate i Color.default ++ [c2])).execute
        ver = .ok [⟨ctrl.id, .RGBControllerUpdateLeds, payload⟩] := by
  have htake : (List.replicate i Color.default ++ [c1]).take i =
      List.replicate i Color.default := by
    rw [List.take_append_eq_append_take]
    simp [List.take_replicate]
  refine ⟨?_, ?_, ?_, ?_, ?_⟩
  · simp only [UpdateLedCommand.add_set_led, UpdateLedCommand.add_command,
      UpdateLedCommand.new]
    rw [if_neg (by omega : ¬ i ≥ ctrl.num_leds)]
    rw [set_colors_single_empty]
    rfl
  · simp only [UpdateLedCommand.add_set_led, UpdateLedCommand.add_command]
    rw [if_neg (by omega : ¬ i ≥ ctrl.num_leds)]
    rw [set_colors_single_exact ctrl _ i c2 (by simp), htake]
    rfl
  · rw [List.get?_append_right (by simp)]
    simp
  · intro j hj
    rw [List.get?_append (by simp [hj])]
    exact get?_replicate_lt Color.default i j hj
  · have hss := @serSlice_appends Color Color.serialize Color.encBytes ver
      (List.replicate i Color.default ++ [c2]) (by simp; omega)
      (fun x _ => color_ser_appends ver x) (WriteMessage.new ver) rfl
    simp only [WriteMessage.new] at hss
    refine ⟨u32ToLeBytes ((vecEncBytes Color.encBytes
        (List.replicate i Color.default ++ [c2])).length + 4) ++
        vecEncBytes Color.encBytes (List.replicate i Color.default ++ [c2]), ?_⟩
    simp only [UpdateLedCommand.execute, update_leds, write_packet,
      OpenRgbPacket.serialize, WriteMessage.new, WriteMessage.len,
      WriteMessage.bytes, WriteMessage.write_u32, WriteMessage.write_slice,
      hss, ebind_ok]
    simp

/-- Claim C7 witness: the last-write-wins batching statement on the concrete
one-LED controller at index 0. -/
theorem c7_witness :
    (UpdateLedCommand.new oneLedController).add_set_led 0 ⟨9, 9, 9⟩ =
      .ok (⟨oneLedController, List.replicate 0 Color.default ++ [⟨9, 9, 9⟩]⟩, []) ∧
    (UpdateLedCommand.mk oneLedController
        (List.replicate 0 Color.default ++ [⟨9, 9, 9⟩])).add_set_led 0 ⟨5, 5, 5⟩ =
      .ok (⟨oneLedController, List.replicate 0 Color.default ++ [⟨5, 5, 5⟩]⟩, []) ∧
    (List.replicate 0 Color.default ++ [(⟨5, 5, 5⟩ : Color)]).get? 0 =
      some ⟨5, 5, 5⟩ ∧
    (∀ j, j < 0 → (List.replicate 0 Color.default ++ [(⟨5, 5, 5⟩ : Color)]).get? j =
      some Color.default) ∧
    ∃ payload,
      (UpdateLedCommand.mk oneLedController
        (List.replicate 0 Color.default ++ [⟨5, 5, 5⟩])).execute 5 =
      .ok [⟨oneLedController.id, .RGBControllerUpdateLeds, payload⟩] :=
  c7_theorem 5 oneLedController 0 ⟨9, 9, 9⟩ ⟨5, 5, 5⟩ (by decide) (by decide)

end OpenRgb2

namespace OpenRgb2

/-- Claim C8: every version-gated session operation checks the negotiated
version before any stream I/O, and below the minimum fails with an
unsupported-operation error carrying the operation name, the active version
and the required minimum, writing no packet (the operation returns the error
instead of a write trace). Profile operations require version 2, save-mode 3,
plugin list 4, add-segment, clear-segments and rescan 5. -/
theorem c8_theorem (v1 : Nat) (h1 : v1 < 2) (v2 : Nat) (h2 : v2 < 3)
    (v3 : Nat) (h3 : v3 < 4) (v4 : Nat) (h4 : v4 < 5)
    (name : List Nat) (cid mid zid : Nat) {μ : Type} (serMode : SerM μ)
    (mode : μ) (seg : SegmentData) :
    get_profiles v1 = .error (.UnsupportedOperation "Get profiles" v1 2) ∧
    load_profile v1 name = .error (.UnsupportedOperation "Load profiles" v1 2) ∧
    save_profile v1 name = .error (.UnsupportedOperation "Save profiles" v1 2) ∧
    delete_profile v1 name =
      .error (.UnsupportedOperation "Delete profiles" v1 2) ∧
    save_mode v2 cid mid serMode mode =
      .error (.UnsupportedOperation "Save mode" v2 3) ∧
    get_plugins v3 = .error (.UnsupportedOperation "Request Plugin List" v3 4) ∧
    add_segment v4 cid zid seg =
      .error (.UnsupportedOperation "Add Segment" v4 5) ∧
    clear_segments v4 cid = .error (.UnsupportedOperation "Clear segment" v4 5) ∧
    rescan_devices v4 = .error (.UnsupportedOperation "Rescan devices" v4 5) := by
  refine ⟨?_, ?_, ?_, ?_, ?_, ?_, ?_, ?_, ?_⟩
  · simp [get_profiles, check_protocol_version, if_pos h1, ebind_err]
  · simp [load_profile, check_protocol_version, if_pos h1, ebind_err]
  · simp [save_profile, check_protocol_version, if_pos h1, ebind_err]
  · simp [delete_profile, check_protocol_version, if_pos h1, ebind_err]
  · simp [save_mode, check_protocol_version, if_pos h2, ebind_err]
  · simp [get_plugins, check_protocol_version, if_pos h3, ebind_err]
  · simp [add_segment, check_protocol_version, if_pos h4, ebind_err]
  · simp [clear_segments, check_protocol_version, if_pos h4, ebind_err]
  · simp [rescan_devices, check_protocol_version, if_pos h4, ebind_err]

/-- Claim C8 witness: the version gates at active versions 1, 2, 3 and 4
(each one below its operation's minimum). -/
theorem c8_witness :
    get_profiles 1 = .error (.UnsupportedOperation "Get profiles" 1 2) ∧
    load_profile 1 [97] = .error (.UnsupportedOperation "Load profiles" 1 2) ∧
    save_profile 1 [97] = .error (.UnsupportedOperation "Save profiles" 1 2) ∧
    delete_profile 1 [97] = .error (.UnsupportedOperation "Delete profiles" 1 2) ∧
    save_mode 2 0 0 serU8 9 = .error (.UnsupportedOperation "Save mode" 2 3) ∧
    get_plugins 3 = .error (.UnsupportedOperation "Request Plugin List" 3 4) ∧
    add_segment 4 0 0 (SegmentData.new [97] 0 1) =
      .error (.UnsupportedOperation "Add Segment" 4 5) ∧
    clear_segments 4 0 = .error (.UnsupportedOperation "Clear segment" 4 5) ∧
    rescan_devices 4 = .error (.UnsupportedOperation "Rescan devices" 4 5) :=
  c8_theorem 1 (by decide) 2 (by decide) 3 (by decide) 4 (by decide)
    [97] 0 0 0 serU8 9 (SegmentData.new [97] 0 1)

/-- Claim C9: `OpenRgbPacket` serializes its contents into a scratch buffer
at the same protocol version, then emits a 32-bit little-endian length field
whose value is the serialized content length plus 4 (the length field
itself), followed by the content bytes; decoding the first four payload
bytes as u32 recovers content length + 4. -/
theorem c9_theorem {α : Type} (serT : SerM α) (x : α) (bs : List Nat) (ver : Nat)
    (hse : SerAppends serT ver x bs) (hlen : bs.length + 4 < 4294967296)
    (w : WriteMessage) (hw : w.protocol_version = ver) :
    OpenRgbPacket.serialize serT x w =
      .ok ⟨ver, w.buf ++ u32ToLeBytes (bs.length + 4) ++ bs⟩ ∧
    deserU32 (ReceivedMessage.new (u32ToLeBytes (bs.length + 4) ++ bs) ver) =
      .ok (bs.length + 4, ⟨ver, u32ToLeBytes (bs.length + 4) ++ bs, 4⟩) := by
  constructor
  · have hi := hse (WriteMessage.new w.protocol_version) (by rw [hw]; rfl)
    simp only [WriteMessage.new] at hi
    simp only [OpenRgbPacket.serialize, WriteMessage.new, hi, ebind_ok,
      WriteMessage.len, WriteMessage.bytes, WriteMessage.write_u32,
      WriteMessage.write_slice]
    simp [hw]
  · have h := deserU32_consumes ver (bs.length + 4) hlen
      (ReceivedMessage.new (u32ToLeBytes (bs.length + 4) ++ bs) ver) bs rfl
      (by simp [ReceivedMessage.new, ReceivedMessage.available_buf])
    simpa [ReceivedMessage.new, u32ToLeBytes] using h

/-- Claim C9 witness: the sub-packet framing around one serialized color
(4 content bytes, length field value 8). -/
theorem c9_witness :
    OpenRgbPacket.serialize Color.serialize ⟨1, 2, 3⟩ (WriteMessage.new 5) =
      .ok ⟨5, (WriteMessage.new 5).buf ++
        u32ToLeBytes ((Color.encBytes ⟨1, 2, 3⟩).length + 4) ++
        Color.encBytes ⟨1, 2, 3⟩⟩ ∧
    deserU32 (ReceivedMessage.new
        (u32ToLeBytes ((Color.encBytes ⟨1, 2, 3⟩).length + 4) ++
          Color.encBytes ⟨1, 2, 3⟩) 5) =
      .ok ((Color.encBytes ⟨1, 2, 3⟩).length + 4,
        ⟨5, u32ToLeBytes ((Color.encBytes ⟨1, 2, 3⟩).length + 4) ++
          Color.encBytes ⟨1, 2, 3⟩, 4⟩) :=
  c9_theorem Color.serialize ⟨1, 2, 3⟩ (Color.encBytes ⟨1, 2, 3⟩) 5
    (color_ser_appends 5 ⟨1, 2, 3⟩) (by decide) (WriteMessage.new 5) rfl

/-- Claim C10: serializing a `Vec<T>` with more than 65535 elements does not
fail — the u16 length prefix wraps to the count modulo 2^16 while every
element is still serialized — so decoding the result yields only the first
`length % 65536` elements, not the original vector; serializing the same
list as a slice `&[T]` instead returns a protocol error. -/
theorem c10_theorem (ver : Nat) (v : List Color) (hlen : v.length > 65535)
    (hv : ∀ x ∈ v, x.r < 256 ∧ x.g < 256 ∧ x.b < 256) (w : WriteMessage)
    (hw : w.protocol_version = ver) :
    serVec Color.serialize v w =
      .ok ⟨ver, w.buf ++ vecEncBytes Color.encBytes v⟩ ∧
    deserVec Color.deserialize
        (ReceivedMessage.new (vecEncBytes Color.encBytes v) ver) =
      .ok (v.take (v.length % 65536),
        ⟨ver, vecEncBytes Color.encBytes v,
          2 + (encList Color.encBytes (v.take (v.length % 65536))).length⟩) ∧
    v.take (v.length % 65536) ≠ v ∧
    serSlice Color.serialize v w =
      .error (.ProtocolError "Slice is too large to encode") := by
  refine ⟨serVec_appends ver v (fun y _ => color_ser_appends ver y) w hw, ?_, ?_,
    serSlice_too_large v hlen w⟩
  · have hsplit : encList Color.encBytes v =
        encList Color.encBytes (v.take (v.length % 65536)) ++
          encList Color.encBytes (v.drop (v.length % 65536)) := by
      rw [← encList_append, List.take_append_drop]
    have hlen' : (v.take (v.length % 65536)).length = v.length % 65536 := by
      rw [List.length_take]
      omega
    have hread : (ReceivedMessage.new (vecEncBytes Color.encBytes v) ver).read_u16 =
        .ok (u16FromLeBytes (v.length % 256) (v.length / 256 % 256),
          ⟨ver, vecEncBytes Color.encBytes v, 0 + 2⟩) :=
      read_u16_spec (ReceivedMessage.new (vecEncBytes Color.encBytes v) ver)
        (v.length % 256) (v.length / 256 % 256) (encList Color.encBytes v)
        (by simp [ReceivedMessage.new, ReceivedMessage.available_buf, vecEncBytes,
          u16ToLeBytes])
    have hval : u16FromLeBytes (v.length % 256) (v.length / 256 % 256) =
        v.length % 65536 := by
      rw [u16FromLeBytes]
      omega
    have hrn := read_n_consumes ver (v.take (v.length % 65536))
      (fun y hy =>
        color_deser_consumes ver y ((hv y (List.take_subset _ _ hy)).1)
          ((hv y (List.take_subset _ _ hy)).2.1)
          ((hv y (List.take_subset _ _ hy)).2.2))
    rw [hlen'] at hrn
    have havail : (⟨ver, vecEncBytes Color.encBytes v, 2⟩ :
        ReceivedMessage).available_buf = encList Color.encBytes v := by
      simp [ReceivedMessage.available_buf, vecEncBytes, u16ToLeBytes]
    have happ := hrn ⟨ver, vecEncBytes Color.encBytes v, 2⟩
      (encList Color.encBytes (v.drop (v.length % 65536))) rfl
      (by rw [havail, hsplit])
    simp only [deserVec, hread, ebind_ok, hval]
    simpa using happ
  · intro heq
    have hl := congrArg List.length heq
    rw [List.length_take] at hl
    omega

/-- Claim C10 witness: a vector of 65536 identical colors — the vec
serializer succeeds with a wrapped (zero) length prefix, decoding returns
the empty first-65536-mod-2^16 elements rather than the original, and the
slice serializer rejects it. -/
theorem c10_witness :
    serVec Color.serialize (List.replicate 65536 ⟨1, 2, 3⟩) (WriteMessage.new 5) =
      .ok ⟨5, (WriteMessage.new 5).buf ++
        vecEncBytes Color.encBytes (List.replicate 65536 ⟨1, 2, 3⟩)⟩ ∧
    deserVec Color.deserialize
        (ReceivedMessage.new
          (vecEncBytes Color.encBytes (List.replicate 65536 ⟨1, 2, 3⟩)) 5) =
      .ok ((List.replicate 65536 (⟨1, 2, 3⟩ : Color)).take
          ((List.replicate 65536 (⟨1, 2, 3⟩ : Color)).length % 65536),
        ⟨5, vecEncBytes Color.encBytes (List.replicate 65536 ⟨1, 2, 3⟩),
          2 + (encList Color.encBytes
            ((List.replicate 65536 (⟨1, 2, 3⟩ : Color)).take
              ((List.replicate 65536 (⟨1, 2, 3⟩ : Color)).length % 65536))).length⟩) ∧
    (List.replicate 65536 (⟨1, 2, 3⟩ : Color)).take
        ((List.replicate 65536 (⟨1, 2, 3⟩ : Color)).length % 65536) ≠
      List.replicate 65536 ⟨1, 2, 3⟩ ∧
    serSlice Color.serialize (List.replicate 65536 ⟨1, 2, 3⟩) (WriteMessage.new 5) =
      .error (.ProtocolError "Slice is too large to encode") :=
  c10_theorem 5 (List.replicate 65536 ⟨1, 2, 3⟩)
    (by rw [List.length_replicate]; omega)
    (fun x hx => by
      rw [List.eq_of_mem_replicate hx]
      exact ⟨by decide, by decide, by decide⟩)
    (WriteMessage.new 5) rfl

end OpenRgb2
